import Mathlib

/-!
Verification of the Starknet syscall handler
(`src/syscalls/business_logic_syscall_handler.rs` and
`src/transaction/deploy.rs`), as a shallow embedding.

Modelling conventions:
* `Felt252` values are `Nat`s (< the Starknet prime where relevant);
  `Felt252::from_bytes_be` of an ASCII message is `feltOfStr`.
* u64/u128 arithmetic is `Nat` with explicit `% 2^64` / `% 2^128` where the
  Rust code can wrap; Rust `saturating_sub` on unsigned is `Nat` subtraction.
* VM memory is abstracted away: a decoded request carries the felts the
  handler would read with `get_felt_range`, and a response body carries the
  contents of the retdata segment the handler would allocate
  (`allocate_segment` + `(retdata_start, retdata_end)` become the list of
  felts written).
* Effects performed through the `State`/`StateReader` traits (whose
  implementations live outside the embedded files) are oracles bundled in
  `Env`: each oracle is the result the external call would return.
* Fallible Rust functions (`Result<T, E>`) become `Except E T`.
-/

namespace Starknet

/-- View of `Except` as a sum, for deciding equality. -/
def exceptToSum {ε α : Type} : Except ε α → Sum ε α
  | .error e => .inl e
  | .ok a => .inr a

instance {ε α : Type} [DecidableEq ε] [DecidableEq α] : DecidableEq (Except ε α) :=
  fun x y =>
    decidable_of_iff (exceptToSum x = exceptToSum y)
      (by cases x <;> cases y <;> simp [exceptToSum])

/-- The Starknet prime (field of `Felt252`). -/
def PRIME : Nat := 2 ^ 251 + 17 * 2 ^ 192 + 1

/-- `Felt252::from_bytes_be(msg.as_bytes())` for an ASCII message: the bytes
read as one big-endian integer. -/
def feltOfStr (s : String) : Nat :=
  s.toList.foldl (fun a c => a * 256 + c.toNat) 0

/-- The 32-byte big-endian encoding of a felt (`Felt252::to_be_bytes`). -/
def toBytesBE32 (n : Nat) : List Nat :=
  (List.range 32).map (fun i => n / 256 ^ (31 - i) % 256)

/-- `const STEP: u128 = 100`. -/
def STEP : Nat := 100

/-- `const SYSCALL_BASE: u128 = 100 * STEP`. -/
def SYSCALL_BASE : Nat := 100 * STEP

/-- `const KECCAK_ROUND_COST: u128 = 180000`. -/
def KECCAK_ROUND_COST : Nat := 180000

/-- The values of the `SELECTOR_TO_SYSCALL` map, in insertion order: the
twelve syscall names a selector can resolve to.  (The felt keys — nine
integer literals plus the sn-keccak images of "get_block_timestamp",
"get_block_number" and "Keccak" — are not needed by any claim and are not
modelled.) -/
def SELECTOR_TO_SYSCALL_VALUES : List String :=
  ["library_call", "replace_class", "get_execution_info", "storage_read",
   "call_contract", "send_message_to_l1", "deploy", "emit_event",
   "storage_write", "get_block_timestamp", "get_block_number", "keccak"]

/-- `map["entry_point_initial_budget"] = 100 * STEP`. -/
def entry_point_initial_budget : Nat := 100 * STEP

/-- `map["entry_point"] = map["entry_point_initial_budget"] + 500 * STEP`. -/
def entry_point_gas_cost : Nat := entry_point_initial_budget + 500 * STEP

/-- `map["fee_transfer"] = map["entry_point"] + 100 * STEP`. -/
def fee_transfer_gas_cost : Nat := entry_point_gas_cost + 100 * STEP

/-- The contents of the `SYSCALL_GAS_COST` map, key by key as the
`lazy_static` block inserts them.  A key that was never inserted — note that
neither "get_block_number" nor "get_block_hash" is — looks up to `none`. -/
def SYSCALL_GAS_COST : String → Option Nat
  | "initial" => some (100000000 * STEP)
  | "entry_point_initial_budget" => some entry_point_initial_budget
  | "entry_point" => some entry_point_gas_cost
  | "fee_transfer" => some fee_transfer_gas_cost
  | "transaction" => some (2 * entry_point_gas_cost + fee_transfer_gas_cost + 100 * STEP)
  | "call_contract" => some (SYSCALL_BASE + 10 * STEP + entry_point_gas_cost)
  | "deploy" => some (SYSCALL_BASE + 200 * STEP + entry_point_gas_cost)
  | "get_execution_info" => some (SYSCALL_BASE + 10 * STEP)
  | "library_call" => some (SYSCALL_BASE + 10 * STEP + entry_point_gas_cost)
  | "replace_class" => some (SYSCALL_BASE + 50 * STEP)
  | "storage_read" => some (SYSCALL_BASE + 50 * STEP)
  | "storage_write" => some (SYSCALL_BASE + 50 * STEP)
  | "emit_event" => some (SYSCALL_BASE + 10 * STEP)
  | "send_message_to_l1" => some (SYSCALL_BASE + 50 * STEP)
  | "get_block_timestamp" => some 0
  | "keccak" => some 0
  | _ => none

/-- The variants of `StateError` the embedded code constructs or matches on.
`Io` is the one variant `_storage_read` propagates; `OtherVariant` stands for
the remaining variants of the Rust enum (whose definition lives outside the
embedded files), which `_storage_read` swallows alike. -/
inductive StateError
  | Io (msg : String)
  | ConstructorCalldataEmpty
  | ExecutionEntryPoint
  | CustomError (msg : String)
  | NoneEntryPointType
  | OtherVariant (code : Nat)
  deriving DecidableEq

/-- The variants of `SyscallHandlerError` the embedded code constructs.
`State` is the `From<StateError>` conversion the `?` operator applies. -/
inductive SyscallHandlerError
  | SelectorNotInHandlerMap (selector : String)
  | SelectorDoesNotHaveAssociatedGas (selector : String)
  | UnknownSyscall (name : String)
  | ExecutionError (msg : String)
  | DeployFromZero (value : Nat)
  | Conversion (src dst : String)
  | State (e : StateError)
  deriving DecidableEq

/-- The variants of `TransactionError` the embedded `deploy.rs` code
constructs. -/
inductive TransactionError
  | EmptyConstructorCalldata
  | StateErr (e : StateError)
  deriving DecidableEq

/-- `OrderedEvent { order, keys, data }`. -/
structure OrderedEvent where
  order : Nat
  keys : List Nat
  data : List Nat
  deriving DecidableEq

/-- `OrderedL2ToL1Message { order, to_address, payload }`. -/
structure OrderedL2ToL1Message where
  order : Nat
  to_address : Nat
  payload : List Nat
  deriving DecidableEq

/-- `CallResult { gas_consumed, is_success, retdata }`. -/
structure CallResult where
  gas_consumed : Nat
  is_success : Bool
  retdata : List Nat
  deriving DecidableEq

/-- The fields of `CallInfo` the embedded code reads or writes.  Storage keys
(`[u8; 32]`, images of felts under `to_be_bytes`) are represented by the felt
itself. -/
structure CallInfo where
  caller_address : Nat
  contract_address : Nat
  class_hash : Option Nat
  retdata : List Nat
  gas_consumed : Nat
  failure_flag : Bool
  storage_read_values : List Nat
  accessed_storage_keys : Finset Nat
  deriving DecidableEq

/-- Modelled from the spec: `CallInfo::empty_constructor_call` (its code is in
`execution/mod.rs`, outside the embedded files) synthesizes an
empty-constructor `CallInfo`: the given addresses and class hash, no
calldata, no retdata, no gas consumed, not failed. -/
def CallInfo.empty_constructor_call (contract_address caller_address : Nat)
    (class_hash : Option Nat) : CallInfo :=
  { caller_address := caller_address
    contract_address := contract_address
    class_hash := class_hash
    retdata := []
    gas_consumed := 0
    failure_flag := false
    storage_read_values := []
    accessed_storage_keys := ∅ }

/-- Modelled from the spec: `CallInfo::result` (in `execution/mod.rs`, outside
the embedded files) projects the `CallResult` of a call: gas consumed,
success = not failed, and the retdata. -/
def CallInfo.result (ci : CallInfo) : CallResult :=
  { gas_consumed := ci.gas_consumed
    is_success := !ci.failure_flag
    retdata := ci.retdata }

/-- `EntryPointType`. -/
inductive EntryPointType
  | External
  | Constructor
  | L1Handler
  deriving DecidableEq

/-- `CallType`. -/
inductive CallType
  | Call
  | Delegate
  deriving DecidableEq

/-- The fields of `ExecutionEntryPoint` the embedded code constructs
(`ExecutionEntryPoint::new`'s arguments, in order). -/
structure ExecutionEntryPoint where
  contract_address : Nat
  calldata : List Nat
  entry_point_selector : Nat
  caller_address : Nat
  entry_point_type : EntryPointType
  call_type : Option CallType
  class_hash : Option Nat
  initial_gas : Nat
  deriving DecidableEq

/-- The fields of `ExecutionResult` the embedded code destructures. -/
structure ExecutionResult where
  call_info : Option CallInfo
  revert_error : Option String
  deriving DecidableEq

/-- `CompiledClass`: what `constructor_entry_points_empty` inspects.  A
`Deprecated` class carries `entry_points_by_type.get(Constructor)` — `none`
when the map has no `Constructor` key — and a `Casm` class carries
`entry_points_by_type.constructor`; entry points themselves are opaque. -/
inductive CompiledClass
  | Deprecated (constructor_entry_points : Option (List Nat))
  | Casm (constructor_entry_points : List Nat)
  deriving DecidableEq

/-- The mutable pieces of `BusinessLogicSyscallHandler` the embedded code
touches: the four accumulators, the per-call storage accumulators
(`starknet_storage_state.read_values` / `.accessed_keys`), the shared
transaction-context counters, and the two addresses. -/
structure HandlerState where
  events : List OrderedEvent
  l2_to_l1_messages : List OrderedL2ToL1Message
  internal_calls : List CallInfo
  read_values : List Nat
  accessed_keys : Finset Nat
  n_emitted_events : Nat
  n_sent_messages : Nat
  contract_address : Nat
  caller_address : Nat
  deriving DecidableEq

/-- Oracles for the external collaborators: each field is the result the
corresponding external call would return.  `execute` stands for
`ExecutionEntryPoint::execute` (the recursive entry-point executor, outside
the embedded files); the state-trait calls are per-call results. -/
structure Env where
  block_number : Nat
  block_timestamp : Nat
  storage_read_result : Except StateError Nat
  get_storage_at : Nat → List Nat → Except StateError Nat
  set_class_hash_at : Nat → Nat → Except StateError Unit
  execute : ExecutionEntryPoint → Except String ExecutionResult
  get_contract_class : Nat → Option CompiledClass
  deploy_contract : Nat → Nat → Except StateError Unit
  calculate_contract_address : Nat → Nat → List Nat → Nat → Nat

/-- `ResponseBody`.  A body that points at an allocated retdata segment
carries that segment's contents instead of the `(start, end)` pointers. -/
inductive ResponseBody
  | Failure (retdata : List Nat)
  | CallContract (retdata : List Nat)
  | Deploy (contract_address : Nat) (retdata : List Nat)
  | StorageReadResponse (value : Nat)
  | Keccak (hash_low hash_high : Nat)
  | GetBlockHash (block_hash : Nat)
  | GetBlockNumber (number : Nat)
  | GetBlockTimestamp (timestamp : Nat)
  | GetExecutionInfo
  deriving DecidableEq

/-- `SyscallResponse { gas, body }`. -/
structure SyscallResponse where
  gas : Nat
  body : Option ResponseBody
  deriving DecidableEq

/-- A decoded syscall request (`SyscallRequest`), with the felts the handler
reads from VM ranges (`get_felt_range`) inlined. -/
inductive SyscallRequest
  | LibraryCall (class_hash selector : Nat) (calldata : List Nat)
  | CallContract (contract_address selector : Nat) (calldata : List Nat)
  | Deploy (class_hash salt : Nat) (calldata : List Nat) (deploy_from_zero : Nat)
  | StorageRead (reserved key : Nat)
  | StorageWrite (reserved key value : Nat)
  | GetExecutionInfo
  | SendMessageToL1 (to_address : Nat) (payload : List Nat)
  | EmitEvent (keys data : List Nat)
  | GetBlockNumber
  | GetBlockTimestamp
  | GetBlockHash (block_number : Nat)
  | ReplaceClass (class_hash : Nat)
  | Keccak (input : List Nat)
  deriving DecidableEq

/-- The syscall name a request variant stands for (the name whose decode arm
in `read_syscall_request` produces this variant). -/
def SyscallRequest.name : SyscallRequest → String
  | .LibraryCall .. => "library_call"
  | .CallContract .. => "call_contract"
  | .Deploy .. => "deploy"
  | .StorageRead .. => "storage_read"
  | .StorageWrite .. => "storage_write"
  | .GetExecutionInfo => "get_execution_info"
  | .SendMessageToL1 .. => "send_message_to_l1"
  | .EmitEvent .. => "emit_event"
  | .GetBlockNumber => "get_block_number"
  | .GetBlockTimestamp => "get_block_timestamp"
  | .GetBlockHash .. => "get_block_hash"
  | .ReplaceClass .. => "replace_class"
  | .Keccak .. => "keccak"

/-- The names `read_syscall_request` has a decode arm for, in the order of its
match.  Note: there is no arm for "get_block_timestamp" or "get_block_hash";
those names fall through to `Err(UnknownSyscall)`. -/
def READ_SYSCALL_REQUEST_ARMS : List String :=
  ["emit_event", "storage_read", "call_contract", "library_call", "deploy",
   "get_block_number", "storage_write", "get_execution_info",
   "send_message_to_l1", "replace_class", "keccak"]

/-! ## The individual syscall handlers -/

/-- `BusinessLogicSyscallHandler::emit_event`: push an `OrderedEvent` whose
order is the shared `n_emitted_events` counter, then increment the counter.
No response body; gas unchanged. -/
def emit_event (st : HandlerState) (keys data : List Nat) (remaining_gas : Nat) :
    HandlerState × SyscallResponse :=
  let order := st.n_emitted_events
  ({ st with
      events := st.events ++ [{ order := order, keys := keys, data := data }]
      n_emitted_events := st.n_emitted_events + 1 },
   { gas := remaining_gas, body := none })

/-- `BusinessLogicSyscallHandler::send_message_to_l1`: push an
`OrderedL2ToL1Message` ordered by the shared `n_sent_messages` counter, then
increment the counter.  No response body; gas unchanged. -/
def send_message_to_l1 (st : HandlerState) (to_address : Nat)
    (payload : List Nat) (remaining_gas : Nat) :
    HandlerState × SyscallResponse :=
  ({ st with
      l2_to_l1_messages := st.l2_to_l1_messages ++
        [{ order := st.n_sent_messages, to_address := to_address, payload := payload }]
      n_sent_messages := st.n_sent_messages + 1 },
   { gas := remaining_gas, body := none })

/-- `BusinessLogicSyscallHandler::get_block_number`. -/
def get_block_number (env : Env) (st : HandlerState) (remaining_gas : Nat) :
    HandlerState × SyscallResponse :=
  (st, { gas := remaining_gas, body := some (.GetBlockNumber env.block_number) })

/-- `BusinessLogicSyscallHandler::get_block_timestamp`. -/
def get_block_timestamp (env : Env) (st : HandlerState) (remaining_gas : Nat) :
    HandlerState × SyscallResponse :=
  (st, { gas := remaining_gas, body := some (.GetBlockTimestamp env.block_timestamp) })

/-- `BusinessLogicSyscallHandler::get_execution_info`: materializes the
execution-info records in a fresh segment (segment layout abstracted away)
and answers with the pointer; gas unchanged. -/
def get_execution_info (st : HandlerState) (remaining_gas : Nat) :
    HandlerState × SyscallResponse :=
  (st, { gas := remaining_gas, body := some .GetExecutionInfo })

/-- `BusinessLogicSyscallHandler::_storage_read`: propagate `StateError::Io`,
swallow every other reader error as a read of zero. -/
def _storage_read (env : Env) : Except StateError Nat :=
  match env.storage_read_result with
  | .ok value => .ok value
  | .error (.Io m) => .error (.Io m)
  | .error _ => .ok 0

/-- `BusinessLogicSyscallHandler::storage_read`: reserved domain must be 0,
else a `"Unsupported address domain"` Failure; then `_storage_read`, whose
error the `?` operator propagates. -/
def storage_read (env : Env) (st : HandlerState) (reserved _key : Nat)
    (remaining_gas : Nat) :
    Except SyscallHandlerError (HandlerState × SyscallResponse) :=
  if reserved ≠ 0 then
    .ok (st, { gas := remaining_gas,
               body := some (.Failure [feltOfStr "Unsupported address domain"]) })
  else
    match _storage_read env with
    | .error e => .error (.State e)
    | .ok value =>
        .ok (st, { gas := remaining_gas,
                   body := some (.StorageReadResponse value) })

/-- `BusinessLogicSyscallHandler::storage_write`: reserved domain must be 0,
else a `"Unsupported address domain"` Failure; the write itself goes through
`ContractStorageState::write` into the external state cache.  No response
body; gas unchanged. -/
def storage_write (st : HandlerState) (reserved _key _value : Nat)
    (remaining_gas : Nat) :
    Except SyscallHandlerError (HandlerState × SyscallResponse) :=
  if reserved ≠ 0 then
    .ok (st, { gas := remaining_gas,
               body := some (.Failure [feltOfStr "Unsupported address domain"]) })
  else
    .ok (st, { gas := remaining_gas, body := none })

/-- `BusinessLogicSyscallHandler::replace_class`: set the class hash of
`self.contract_address` through the state trait, propagating its error. -/
def replace_class (env : Env) (st : HandlerState) (class_hash : Nat)
    (remaining_gas : Nat) :
    Except SyscallHandlerError (HandlerState × SyscallResponse) :=
  match env.set_class_hash_at st.contract_address class_hash with
  | .error e => .error (.State e)
  | .ok _ => .ok (st, { gas := remaining_gas, body := none })

/-- `u64` wrapping subtraction (release-profile Rust semantics of
`current_block_number - 10` in `get_block_hash`). -/
def u64_wrapping_sub (a b : Nat) : Nat := (a + (2 ^ 64 - b % 2 ^ 64)) % 2 ^ 64

/-- Modelled from the spec: the well-known `BLOCK_HASH_CONTRACT_ADDRESS`
constant (its definition is in `definitions/constants.rs`, outside the
embedded files); its exact value is immaterial to the claims. -/
def BLOCK_HASH_CONTRACT_ADDRESS : Nat := 1

/-- `const V_0_12_0_FIRST_BLOCK: u64 = 0` (local to `get_block_hash`). -/
def V_0_12_0_FIRST_BLOCK : Nat := 0

/-- `BusinessLogicSyscallHandler::get_block_hash`.  `block_number` and
`current_block_number` are u64, and `current_block_number - 10` is an
unchecked u64 subtraction (wrapping in release builds).  The
`block_number < V_0_12_0_FIRST_BLOCK` branch is dead for the constant 0. -/
def get_block_hash (env : Env) (st : HandlerState) (block_number : Nat)
    (remaining_gas : Nat) :
    Except SyscallHandlerError (HandlerState × SyscallResponse) :=
  let current_block_number := env.block_number
  if block_number > u64_wrapping_sub current_block_number 10 then
    .ok (st, { gas := remaining_gas,
               body := some (.Failure [feltOfStr "Block number out of range"]) })
  else if block_number < V_0_12_0_FIRST_BLOCK then
    .ok (st, { gas := remaining_gas, body := some (.GetBlockHash 0) })
  else
    match env.get_storage_at BLOCK_HASH_CONTRACT_ADDRESS (toBytesBE32 block_number) with
    | .error e => .error (.State e)
    | .ok block_hash =>
        .ok (st, { gas := remaining_gas, body := some (.GetBlockHash block_hash) })

/-! ## Sub-call path: call_contract / library_call / deploy -/

/-- `BusinessLogicSyscallHandler::call_contract_helper`: run the entry point;
a transport error or a missing `call_info` is an `ExecutionError`; otherwise
subtract `gas_consumed` (saturating), build a Failure or success body from
`failure_flag`, ALWAYS extend the parent's `read_values` and `accessed_keys`
with the child's, and push the child `CallInfo` onto `internal_calls`. -/
def call_contract_helper (env : Env) (st : HandlerState) (remaining_gas : Nat)
    (execution_entry_point : ExecutionEntryPoint) :
    Except SyscallHandlerError (HandlerState × SyscallResponse) :=
  match env.execute execution_entry_point with
  | .error err => .error (.ExecutionError err)
  | .ok res =>
    match res.call_info with
    | none => .error (.ExecutionError (res.revert_error.getD "Execution error"))
    | some call_info =>
      let remaining_gas := remaining_gas - call_info.gas_consumed
      let gas := remaining_gas
      let body := if call_info.failure_flag then
          some (ResponseBody.Failure call_info.retdata)
        else
          some (ResponseBody.CallContract call_info.retdata)
      .ok ({ st with
              read_values := st.read_values ++ call_info.storage_read_values
              accessed_keys := st.accessed_keys ∪ call_info.accessed_storage_keys
              internal_calls := st.internal_calls ++ [call_info] },
           { gas := gas, body := body })

/-- The `ExecutionEntryPoint` `call_contract` builds: callee = requested
address, caller = self, External, `CallType::Call`, no explicit class hash. -/
def call_contract_entry_point (st : HandlerState) (contract_address selector : Nat)
    (calldata : List Nat) (remaining_gas : Nat) : ExecutionEntryPoint :=
  { contract_address := contract_address
    calldata := calldata
    entry_point_selector := selector
    caller_address := st.contract_address
    entry_point_type := .External
    call_type := some .Call
    class_hash := none
    initial_gas := remaining_gas }

/-- `BusinessLogicSyscallHandler::call_contract`. -/
def call_contract (env : Env) (st : HandlerState) (contract_address selector : Nat)
    (calldata : List Nat) (remaining_gas : Nat) :
    Except SyscallHandlerError (HandlerState × SyscallResponse) :=
  call_contract_helper env st remaining_gas
    (call_contract_entry_point st contract_address selector calldata remaining_gas)

/-- The `ExecutionEntryPoint` `library_call` builds: callee = self (storage
stays bound to self), caller = self's caller, External, `CallType::Delegate`,
the requested class hash. -/
def library_call_entry_point (st : HandlerState) (class_hash selector : Nat)
    (calldata : List Nat) (remaining_gas : Nat) : ExecutionEntryPoint :=
  { contract_address := st.contract_address
    calldata := calldata
    entry_point_selector := selector
    caller_address := st.caller_address
    entry_point_type := .External
    call_type := some .Delegate
    class_hash := some class_hash
    initial_gas := remaining_gas }

/-- `BusinessLogicSyscallHandler::library_call`. -/
def library_call (env : Env) (st : HandlerState) (class_hash selector : Nat)
    (calldata : List Nat) (remaining_gas : Nat) :
    Except SyscallHandlerError (HandlerState × SyscallResponse) :=
  call_contract_helper env st remaining_gas
    (library_call_entry_point st class_hash selector calldata remaining_gas)

/-- `constructor_entry_points_empty` (identical in
`business_logic_syscall_handler.rs` and `deploy.rs`): a Deprecated class with
no `Constructor` key in its entry-point map is a `NoneEntryPointType` error
(a `ContractClassError` lifted into `StateError`). -/
def constructor_entry_points_empty (contract_class : CompiledClass) :
    Except StateError Bool :=
  match contract_class with
  | .Deprecated none => .error .NoneEntryPointType
  | .Deprecated (some entry_points) => .ok entry_points.isEmpty
  | .Casm constructor_eps => .ok constructor_eps.isEmpty

/-- Modelled from the spec: the `CONSTRUCTOR_ENTRY_POINT_SELECTOR` constant
(in `definitions/constants.rs`, outside the embedded files). -/
def CONSTRUCTOR_ENTRY_POINT_SELECTOR : Nat :=
  0x028ffe4ff0f226a9107253e17a904099aa4f63a02a5621de0576e5aa71bc5194

/-- `BusinessLogicSyscallHandler::execute_constructor_entry_point`: a class
hash the state cannot resolve yields a `"CLASS_HASH_NOT_FOUND"` failure
result; a class with no constructor entry points demands empty calldata
(else the fatal `StateError::ConstructorCalldataEmpty`) and synthesizes an
empty-constructor `CallInfo`, pushed onto `internal_calls`; otherwise the
constructor entry point runs and its `CallInfo` is pushed and projected. -/
def execute_constructor_entry_point (env : Env) (st : HandlerState)
    (contract_address class_hash_bytes : Nat) (constructor_calldata : List Nat)
    (remainig_gas : Nat) : Except StateError (HandlerState × CallResult) :=
  match env.get_contract_class class_hash_bytes with
  | none =>
      .ok (st, { gas_consumed := 0, is_success := false,
                 retdata := [feltOfStr "CLASS_HASH_NOT_FOUND"] })
  | some compiled_class =>
    match constructor_entry_points_empty compiled_class with
    | .error e => .error e
    | .ok true =>
      if ¬ constructor_calldata.isEmpty then
        .error .ConstructorCalldataEmpty
      else
        let call_info := CallInfo.empty_constructor_call contract_address
          st.contract_address (some class_hash_bytes)
        .ok ({ st with internal_calls := st.internal_calls ++ [call_info] },
             call_info.result)
    | .ok false =>
      let call : ExecutionEntryPoint :=
        { contract_address := contract_address
          calldata := constructor_calldata
          entry_point_selector := CONSTRUCTOR_ENTRY_POINT_SELECTOR
          caller_address := st.contract_address
          entry_point_type := .Constructor
          call_type := some .Call
          class_hash := none
          initial_gas := remainig_gas }
      match env.execute call with
      | .error _ => .error .ExecutionEntryPoint
      | .ok res =>
        match res.call_info with
        | none => .error (.CustomError (res.revert_error.getD "Execution error"))
        | some call_info =>
            .ok ({ st with internal_calls := st.internal_calls ++ [call_info] },
                 call_info.result)

/-- `BusinessLogicSyscallHandler::syscall_deploy`: `deploy_from_zero` must be
0 or 1; derive the deployer, compute the address, install the contract (an
error is a `"CONTRACT_ADDRESS_UNAVAILABLE"` failure result with the zero
address), then run the constructor. -/
def syscall_deploy (env : Env) (st : HandlerState) (class_hash salt : Nat)
    (constructor_calldata : List Nat) (deploy_from_zero : Nat)
    (remaining_gas : Nat) :
    Except SyscallHandlerError (HandlerState × Nat × CallResult) :=
  if ¬ (deploy_from_zero = 0 ∨ deploy_from_zero = 1) then
    .error (.DeployFromZero deploy_from_zero)
  else
    let deployer_address := if deploy_from_zero = 0 then st.contract_address else 0
    let contract_address :=
      env.calculate_contract_address salt class_hash constructor_calldata deployer_address
    match env.deploy_contract contract_address class_hash with
    | .error _ =>
        .ok (st, 0, { gas_consumed := 0, is_success := false,
                      retdata := [feltOfStr "CONTRACT_ADDRESS_UNAVAILABLE"] })
    | .ok _ =>
      match execute_constructor_entry_point env st contract_address class_hash
          constructor_calldata remaining_gas with
      | .error e => .error (.State e)
      | .ok (st, result) => .ok (st, contract_address, result)

/-- `u128` wrapping subtraction: the release-profile semantics of the
unchecked `remaining_gas -= result.gas_consumed` in `deploy`. -/
def u128_wrapping_sub (a b : Nat) : Nat := (a + (2 ^ 128 - b % 2 ^ 128)) % 2 ^ 128

/-- `BusinessLogicSyscallHandler::deploy`: run `syscall_deploy`, then the
UNCHECKED `remaining_gas -= result.gas_consumed` (contrast the saturating
subtraction in `call_contract_helper`), then a Deploy or Failure body. -/
def deploy (env : Env) (st : HandlerState) (class_hash salt : Nat)
    (calldata : List Nat) (deploy_from_zero : Nat) (remaining_gas : Nat) :
    Except SyscallHandlerError (HandlerState × SyscallResponse) :=
  match syscall_deploy env st class_hash salt calldata deploy_from_zero remaining_gas with
  | .error e => .error e
  | .ok (st, contract_address, result) =>
    let remaining_gas := u128_wrapping_sub remaining_gas result.gas_consumed
    let body : ResponseBody := if result.is_success then
        .Deploy contract_address result.retdata
      else
        .Failure result.retdata
    .ok (st, { gas := remaining_gas, body := some body })

/-! ## Keccak

The handler calls `keccak::f1600` from the external `keccak` crate: the
standard Keccak-f[1600] permutation on 25 u64 lanes, lane `(x, y)` stored at
flat index `x + 5*y`.  It is implemented here from the FIPS 202 round
functions (θ, ρ, π, χ, ι over 24 rounds). -/

/-- Mask to 64 bits. -/
def U64MASK : Nat := 2 ^ 64 - 1

/-- Left-rotation of a 64-bit lane. -/
def rotl64 (a n : Nat) : Nat :=
  ((a <<< n) % 2 ^ 64) ||| ((a % 2 ^ 64) >>> (64 - n))

/-- The ρ rotation offsets, flat by `x + 5*y` (one sublist per plane y). -/
def KECCAK_RHO_OFFSETS : List Nat :=
  [0, 1, 62, 28, 27] ++
  [36, 44, 6, 55, 20] ++
  [3, 10, 43, 25, 39] ++
  [41, 45, 15, 21, 8] ++
  [18, 2, 61, 56, 14]

/-- The 24 ι round constants (grouped four per round quadruple). -/
def KECCAK_RC : List Nat :=
  [0x0000000000000001, 0x0000000000008082, 0x800000000000808a, 0x8000000080008000] ++
  [0x000000000000808b, 0x0000000080000001, 0x8000000080008081, 0x8000000000008009] ++
  [0x000000000000008a, 0x0000000000000088, 0x0000000080008009, 0x000000008000000a] ++
  [0x000000008000808b, 0x800000000000008b, 0x8000000000008089, 0x8000000000008003] ++
  [0x8000000000008002, 0x8000000000000080, 0x000000000000800a, 0x800000008000000a] ++
  [0x8000000080008081, 0x8000000000008080, 0x0000000080000001, 0x8000000080008008]

/-- θ: xor every lane with the parity of its two neighbouring columns. -/
def keccakTheta (A : List Nat) : List Nat :=
  let C := fun (x : Nat) =>
    A.getD x 0 ^^^ A.getD (x + 5) 0 ^^^ A.getD (x + 10) 0 ^^^
    A.getD (x + 15) 0 ^^^ A.getD (x + 20) 0
  let D := fun (x : Nat) => C ((x + 4) % 5) ^^^ rotl64 (C ((x + 1) % 5)) 1
  (List.range 25).map (fun i => A.getD i 0 ^^^ D (i % 5))

/-- ρ and π: `B[y, 2x+3y] = rotl(A[x, y], r[x, y])`; reading the output lane
`(xp, yp)` back, its source is `y = xp`, `x = 3*(yp - 3*xp) mod 5`. -/
def keccakRhoPi (A : List Nat) : List Nat :=
  (List.range 25).map (fun j =>
    let xp := j % 5
    let yp := j / 5
    let y := xp
    let x := 3 * (yp + 15 - 3 * xp) % 5
    rotl64 (A.getD (x + 5 * y) 0) (KECCAK_RHO_OFFSETS.getD (x + 5 * y) 0))

/-- χ: `A[x, y] = B[x, y] ^ (!B[x+1, y] & B[x+2, y])`. -/
def keccakChi (B : List Nat) : List Nat :=
  (List.range 25).map (fun j =>
    let x := j % 5
    let y := j / 5
    B.getD j 0 ^^^ ((B.getD ((x + 1) % 5 + 5 * y) 0 ^^^ U64MASK) &&&
      B.getD ((x + 2) % 5 + 5 * y) 0))

/-- One Keccak-f round: θ, ρ+π, χ, then ι on lane 0. -/
def keccakRound (A : List Nat) (rc : Nat) : List Nat :=
  match keccakChi (keccakRhoPi (keccakTheta A)) with
  | [] => []
  | a0 :: rest => (a0 ^^^ rc) :: rest

/-- `keccak::f1600`: the 24 rounds. -/
def f1600 (A : List Nat) : List Nat := KECCAK_RC.foldl keccakRound A

/-- The zero-initialized 25-lane state (`[0u64; 25]`). -/
def keccakInitState : List Nat := List.replicate 25 0

/-- The inner xor loop of one keccak round of the handler:
`state[i] ^= chunk[i].to_u64()?`, failing with a `Conversion` error on the
first chunk element that does not fit in 64 bits. -/
def xorChunk : List Nat → List Nat → Except SyscallHandlerError (List Nat)
  | state, [] => .ok state
  | [], _ :: _ => .ok []
  | s :: state, v :: chunk =>
    if v < 2 ^ 64 then
      match xorChunk state chunk with
      | .error e => .error e
      | .ok rest => .ok ((s ^^^ v) :: rest)
    else
      .error (.Conversion "Felt252" "u64")

/-- Fuel-driven helper for `chunksOf17`; the fuel (instantiated with the
list's length) only certifies termination. -/
def chunksOf17Aux : Nat → List Nat → List (List Nat)
  | _, [] => []
  | 0, _ :: _ => []
  | fuel + 1, x :: xs => ((x :: xs).take 17) :: chunksOf17Aux fuel ((x :: xs).drop 17)

/-- The consecutive 17-felt chunks of the input range
(`get_felt_range(vm, chunk_start, chunk_start + 17)` per iteration). -/
def chunksOf17 (l : List Nat) : List (List Nat) := chunksOf17Aux l.length l

/-- How one pass of the `for i in 0..n_chunks` loop ends: starved of gas
before absorbing every chunk, or done. -/
inductive KeccakLoopResult
  | outOfGas (gas : Nat)
  | done (gas : Nat) (state : List Nat)
  deriving DecidableEq

/-- The absorb loop of `BusinessLogicSyscallHandler::keccak`: per chunk,
check `gas < KECCAK_ROUND_COST` first (answering out-of-gas with the gas
already left), then debit, xor the chunk in, and permute. -/
def keccakRounds : List (List Nat) → Nat → List Nat →
    Except SyscallHandlerError KeccakLoopResult
  | [], gas, state => .ok (.done gas state)
  | chunk :: rest, gas, state =>
    if gas < KECCAK_ROUND_COST then .ok (.outOfGas gas)
    else
      match xorChunk state chunk with
      | .error e => .error e
      | .ok state1 => keccakRounds rest (gas - KECCAK_ROUND_COST) (f1600 state1)

/-- `(Felt252::from(hi) << 64u32) + Felt252::from(lo)`: felt arithmetic. -/
def feltShl64Add (hi lo : Nat) : Nat := ((hi % PRIME) * 2 ^ 64 % PRIME + lo % PRIME) % PRIME

/-- `hash_low = (state[1] << 64) | state[0]` as a felt. -/
def keccakHashLow (state : List Nat) : Nat := feltShl64Add (state.getD 1 0) (state.getD 0 0)

/-- `hash_high = (state[3] << 64) | state[2]` as a felt. -/
def keccakHashHigh (state : List Nat) : Nat := feltShl64Add (state.getD 3 0) (state.getD 2 0)

/-- `BusinessLogicSyscallHandler::keccak`: length must be a multiple of 17
(else an `"Invalid keccak input size"` Failure with gas unchanged); then the
absorb loop; a starved loop answers `"Syscall out of gas"` carrying the gas
left after the rounds already debited. -/
def keccak (st : HandlerState) (input : List Nat) (remaining_gas : Nat) :
    Except SyscallHandlerError (HandlerState × SyscallResponse) :=
  let length := input.length
  let gas := remaining_gas
  if length % 17 ≠ 0 then
    .ok (st, { gas := gas,
               body := some (.Failure [feltOfStr "Invalid keccak input size"]) })
  else
    match keccakRounds (chunksOf17 input) gas keccakInitState with
    | .error e => .error e
    | .ok (.outOfGas gas) =>
        .ok (st, { gas := gas,
                   body := some (.Failure [feltOfStr "Syscall out of gas"]) })
    | .ok (.done gas state) =>
        .ok (st, { gas := gas,
                   body := some (.Keccak (keccakHashLow state) (keccakHashHigh state)) })

/-! ## The dispatcher -/

/-- `read_syscall_request` for an already-decoded request: a name with a
decode arm passes the request through, any other name — including
"get_block_timestamp" and "get_block_hash", which have handlers but no
decode arm — is `Err(UnknownSyscall)`. -/
def read_syscall_request (request : SyscallRequest) :
    Except SyscallHandlerError SyscallRequest :=
  if READ_SYSCALL_REQUEST_ARMS.contains request.name then .ok request
  else .error (.UnknownSyscall request.name)

/-- `BusinessLogicSyscallHandler::execute_syscall`: dispatch on the request
variant. -/
def execute_syscall (env : Env) (st : HandlerState) (request : SyscallRequest)
    (remaining_gas : Nat) :
    Except SyscallHandlerError (HandlerState × SyscallResponse) :=
  match request with
  | .LibraryCall class_hash selector calldata =>
      library_call env st class_hash selector calldata remaining_gas
  | .CallContract contract_address selector calldata =>
      call_contract env st contract_address selector calldata remaining_gas
  | .Deploy class_hash salt calldata deploy_from_zero =>
      deploy env st class_hash salt calldata deploy_from_zero remaining_gas
  | .StorageRead reserved key => storage_read env st reserved key remaining_gas
  | .StorageWrite reserved key value => storage_write st reserved key value remaining_gas
  | .GetExecutionInfo => .ok (get_execution_info st remaining_gas)
  | .SendMessageToL1 to_address payload =>
      .ok (send_message_to_l1 st to_address payload remaining_gas)
  | .EmitEvent keys data => .ok (emit_event st keys data remaining_gas)
  | .GetBlockNumber => .ok (get_block_number env st remaining_gas)
  | .GetBlockTimestamp => .ok (get_block_timestamp env st remaining_gas)
  | .GetBlockHash block_number => get_block_hash env st block_number remaining_gas
  | .ReplaceClass class_hash => replace_class env st class_hash remaining_gas
  | .Keccak input => keccak st input remaining_gas

/-- `BusinessLogicSyscallHandler::syscall`, from the point where the selector
has resolved to `request.name` and `initial_gas` has been read: decode the
request (`read_and_validate_syscall_request`), look the name up in
`SYSCALL_GAS_COST` (`Err(SelectorDoesNotHaveAssociatedGas)` when absent),
`required_gas = cost.saturating_sub(SYSCALL_BASE)`; below it, a `"Out of
gas"` Failure with `gas = initial_gas` and no execution; otherwise execute
with `remaining_gas = initial_gas - required_gas`. -/
def syscall (env : Env) (st : HandlerState) (request : SyscallRequest)
    (initial_gas : Nat) :
    Except SyscallHandlerError (HandlerState × SyscallResponse) :=
  match read_syscall_request request with
  | .error e => .error e
  | .ok request =>
    match SYSCALL_GAS_COST request.name with
    | none => .error (.SelectorDoesNotHaveAssociatedGas request.name)
    | some cost =>
      let required_gas := cost - SYSCALL_BASE
      if initial_gas < required_gas then
        .ok (st, { gas := initial_gas,
                   body := some (.Failure [feltOfStr "Out of gas"]) })
      else
        execute_syscall env st request (initial_gas - required_gas)

/-! ## The Deploy transaction's constructor path (`transaction/deploy.rs`) -/

/-- The fields of the `Deploy` transaction the constructor path reads. -/
structure DeployTx where
  contract_address : Nat
  contract_hash : Nat
  contract_class : CompiledClass
  constructor_calldata : List Nat
  deriving DecidableEq

/-- `Deploy::handle_empty_constructor`: non-empty calldata is the fatal
`TransactionError::EmptyConstructorCalldata`; otherwise synthesize the
empty-constructor `CallInfo` (caller = the zero address) that the returned
`TransactionExecutionInfo` carries.  (The resource accounting around it is
abstracted away.) -/
def handle_empty_constructor (tx : DeployTx) : Except TransactionError CallInfo :=
  if ¬ tx.constructor_calldata.isEmpty then
    .error .EmptyConstructorCalldata
  else
    .ok (CallInfo.empty_constructor_call tx.contract_address 0 (some tx.contract_hash))

/-- The constructor dispatch step of `Deploy::apply`: a class with no
constructors goes through `handle_empty_constructor`; otherwise
`invoke_constructor` runs the entry point (`none` here — its result comes
from the external executor). -/
def apply_constructor_step (tx : DeployTx) :
    Except TransactionError (Option CallInfo) :=
  match constructor_entry_points_empty tx.contract_class with
  | .error e => .error (.StateErr e)
  | .ok true =>
    match handle_empty_constructor tx with
    | .error e => .error e
    | .ok call_info => .ok (some call_info)
  | .ok false => .ok none

/-! ## Fixtures: a concrete environment and handler state for witnesses and
counterexamples -/

/-- A concrete oracle environment. -/
def env0 : Env :=
  { block_number := 0
    block_timestamp := 0
    storage_read_result := .ok 0
    get_storage_at := fun _ _ => .ok 0
    set_class_hash_at := fun _ _ => .ok ()
    execute := fun _ => .error "unused"
    get_contract_class := fun _ => none
    deploy_contract := fun _ _ => .ok ()
    calculate_contract_address := fun _ _ _ _ => 0 }

/-- A concrete handler state, freshly constructed. -/
def st0 : HandlerState :=
  { events := []
    l2_to_l1_messages := []
    internal_calls := []
    read_values := []
    accessed_keys := ∅
    n_emitted_events := 0
    n_sent_messages := 0
    contract_address := 1
    caller_address := 0 }

/-! ## Derived gas-accounting notions used by the theorems -/

/-- The `required_gas` the dispatcher charges for a request:
`SYSCALL_GAS_COST[name].saturating_sub(SYSCALL_BASE)` (0 when the name has no
entry, in which case the dispatcher errors out before charging). -/
def required_syscall_gas (request : SyscallRequest) : Nat :=
  (SYSCALL_GAS_COST request.name).getD 0 - SYSCALL_BASE

/-- How many rounds the keccak absorb loop debits on this input and gas. -/
def keccakRoundsDebited (input : List Nat) (gas : Nat) : Nat :=
  if input.length % 17 ≠ 0 then 0
  else min (input.length / 17) (gas / KECCAK_ROUND_COST)

/-- Whether a request is a keccak that debits no round. -/
def keccakNoRounds (request : SyscallRequest) (gas : Nat) : Bool :=
  match request with
  | .Keccak input => keccakRoundsDebited input gas == 0
  | _ => false

/-- The `result.gas_consumed` the deploy handler subtracts (0 when the flow
does not reach the unchecked subtraction or the request is not a deploy). -/
def deploy_constructor_gas (env : Env) (st : HandlerState)
    (request : SyscallRequest) (remaining_gas : Nat) : Nat :=
  match request with
  | .Deploy class_hash salt calldata deploy_from_zero =>
    match syscall_deploy env st class_hash salt calldata deploy_from_zero remaining_gas with
    | .ok (_, _, result) => result.gas_consumed
    | .error _ => 0
  | _ => 0

/-- A sequence of `emit_event` calls threading the handler state (the shared
`n_emitted_events` counter included). -/
def runEmitTrace (st : HandlerState) (inputs : List (List Nat × List Nat))
    (gas : Nat) : HandlerState :=
  match inputs with
  | [] => st
  | kd :: rest => runEmitTrace (emit_event st kd.1 kd.2 gas).1 rest gas

/-- A sequence of `send_message_to_l1` calls threading the handler state. -/
def runSendTrace (st : HandlerState) (inputs : List (Nat × List Nat))
    (gas : Nat) : HandlerState :=
  match inputs with
  | [] => st
  | tp :: rest => runSendTrace (send_message_to_l1 st tp.1 tp.2 gas).1 rest gas

/-- Total version of `xorChunk` (equal to it when every chunk element fits
64 bits). -/
def xorChunkTotal : List Nat → List Nat → List Nat
  | state, [] => state
  | [], _ :: _ => []
  | s :: state, v :: chunk => (s ^^^ v) :: xorChunkTotal state chunk

/-- The absorb phase as a plain recursion: xor each chunk in and permute. -/
def keccakAbsorb (chunks : List (List Nat)) (state : List Nat) : List Nat :=
  match chunks with
  | [] => state
  | c :: rest => keccakAbsorb rest (f1600 (xorChunkTotal state c))

/-- The concrete environment of the C3 counterexample: genesis block
(`current_block_number = 0`) and a storage holding hash 77 everywhere. -/
def envC3 : Env := { env0 with get_storage_at := fun _ _ => .ok 77 }

/-! ## Theorems for the claims -/

/-- C1: refuted by the code.  "get_block_number" is a value of the selector
map, but `SYSCALL_GAS_COST` has no "get_block_number" key, so its dispatch
fails with `SelectorDoesNotHaveAssociatedGas` instead of finding a gas-cost
entry and executing; "get_block_timestamp" resolves and has a (zero) gas
entry but `read_syscall_request` has no decode arm for it, so its dispatch
fails with `UnknownSyscall` before the gas lookup.  The remaining ten names
dispatch as claimed (shown for storage_read: cost `SYSCALL_BASE + 50·STEP`,
charge 5000, execution with the remainder). -/
theorem syscall_get_block_number_gas_lookup_fails :
    SELECTOR_TO_SYSCALL_VALUES.contains "get_block_number" = true ∧
    SYSCALL_GAS_COST "get_block_number" = none ∧
    syscall env0 st0 .GetBlockNumber 1000000 =
      .error (.SelectorDoesNotHaveAssociatedGas "get_block_number") ∧
    SELECTOR_TO_SYSCALL_VALUES.contains "get_block_timestamp" = true ∧
    SYSCALL_GAS_COST "get_block_timestamp" = some 0 ∧
    syscall env0 st0 .GetBlockTimestamp 1000000 =
      .error (.UnknownSyscall "get_block_timestamp") ∧
    SYSCALL_GAS_COST "storage_read" = some (SYSCALL_BASE + 50 * STEP) ∧
    syscall env0 st0 (.StorageRead 0 7) 15000 =
      .ok (st0, { gas := 10000, body := some (.StorageReadResponse 0) }) := by
  decide

/-- C9: `storage_read` (reserved = 0) propagates only `StateError::Io` from
the reader; every other reader error is converted into a successful read of
zero. -/
theorem storage_read_error_band (env : Env) (st : HandlerState) (key g : Nat) :
    (∀ v, env.storage_read_result = .ok v →
      storage_read env st 0 key g =
        .ok (st, { gas := g, body := some (.StorageReadResponse v) })) ∧
    (∀ e, (∀ m, e ≠ StateError.Io m) → env.storage_read_result = .error e →
      storage_read env st 0 key g =
        .ok (st, { gas := g, body := some (.StorageReadResponse 0) })) ∧
    (∀ m, env.storage_read_result = .error (.Io m) →
      storage_read env st 0 key g = .error (.State (.Io m))) := by
  refine ⟨?_, ?_, ?_⟩
  · intro v hv
    simp [storage_read, _storage_read, hv]
  · intro e he hv
    have hz : _storage_read env = .ok 0 := by
      cases e
      case Io m => exact absurd rfl (he m)
      all_goals simp [_storage_read, hv]
    simp [storage_read, hz]
  · intro m hv
    simp [storage_read, _storage_read, hv]

/-- C8: `emit_event` pushes an event whose order is the transaction context's
`n_emitted_events` at emission and increments the counter;
`send_message_to_l1` does the same with `n_sent_messages`; consequently, over
any trace of emissions threading the shared context from a fresh state, the
recorded orders are exactly `0, 1, 2, …` in emission order. -/
theorem ordered_events_contiguous :
    (∀ st keys data gas,
        emit_event st keys data gas =
          ({ st with events := st.events ++ [⟨st.n_emitted_events, keys, data⟩],
                     n_emitted_events := st.n_emitted_events + 1 },
           { gas := gas, body := none })) ∧
    (∀ st to_address payload gas,
        send_message_to_l1 st to_address payload gas =
          ({ st with l2_to_l1_messages := st.l2_to_l1_messages ++
                        [⟨st.n_sent_messages, to_address, payload⟩],
                     n_sent_messages := st.n_sent_messages + 1 },
           { gas := gas, body := none })) ∧
    (∀ inputs gas, (runEmitTrace st0 inputs gas).events.map (fun e => e.order) =
        List.range inputs.length) ∧
    (∀ inputs gas,
        (runSendTrace st0 inputs gas).l2_to_l1_messages.map (fun m => m.order) =
        List.range inputs.length) := by
  have emitTrace : ∀ (inputs : List (List Nat × List Nat)) (st : HandlerState) (gas : Nat),
      (runEmitTrace st inputs gas).events.map (fun e => e.order) =
        st.events.map (fun e => e.order) ++
          List.range' st.n_emitted_events inputs.length := by
    intro inputs
    induction inputs with
    | nil => intro st gas; simp [runEmitTrace]
    | cons kd rest ih =>
      intro st gas
      rw [runEmitTrace, ih]
      simp [emit_event, List.range'_succ]
  have sendTrace : ∀ (inputs : List (Nat × List Nat)) (st : HandlerState) (gas : Nat),
      (runSendTrace st inputs gas).l2_to_l1_messages.map (fun m => m.order) =
        st.l2_to_l1_messages.map (fun m => m.order) ++
          List.range' st.n_sent_messages inputs.length := by
    intro inputs
    induction inputs with
    | nil => intro st gas; simp [runSendTrace]
    | cons tp rest ih =>
      intro st gas
      rw [runSendTrace, ih]
      simp [send_message_to_l1, List.range'_succ]
  refine ⟨fun st keys data gas => rfl, fun st to_address payload gas => rfl, ?_, ?_⟩
  · intro inputs gas
    rw [emitTrace inputs st0 gas]
    simp [st0, List.range_eq_range']
  · intro inputs gas
    rw [sendTrace inputs st0 gas]
    simp [st0, List.range_eq_range']

/-- C7: after every `call_contract` or `library_call` whose entry-point
execution yields a child `call_info` — whether or not its `failure_flag` is
set — the parent's `read_values` is extended with the child's
`storage_read_values`, the parent's `accessed_keys` with the child's
`accessed_storage_keys`, and the child is pushed onto `internal_calls`. -/
theorem call_helper_propagates_child_state (env : Env) (st : HandlerState)
    (address selector : Nat) (calldata : List Nat) (g : Nat)
    (ci : CallInfo) (rev : Option String) :
    (env.execute (call_contract_entry_point st address selector calldata g) =
        .ok { call_info := some ci, revert_error := rev } →
      call_contract env st address selector calldata g =
        .ok ({ st with
                read_values := st.read_values ++ ci.storage_read_values
                accessed_keys := st.accessed_keys ∪ ci.accessed_storage_keys
                internal_calls := st.internal_calls ++ [ci] },
             { gas := g - ci.gas_consumed,
               body := if ci.failure_flag then some (.Failure ci.retdata)
                       else some (.CallContract ci.retdata) })) ∧
    (env.execute (library_call_entry_point st address selector calldata g) =
        .ok { call_info := some ci, revert_error := rev } →
      library_call env st address selector calldata g =
        .ok ({ st with
                read_values := st.read_values ++ ci.storage_read_values
                accessed_keys := st.accessed_keys ∪ ci.accessed_storage_keys
                internal_calls := st.internal_calls ++ [ci] },
             { gas := g - ci.gas_consumed,
               body := if ci.failure_flag then some (.Failure ci.retdata)
                       else some (.CallContract ci.retdata) })) := by
  constructor
  · intro h
    simp [call_contract, call_contract_helper, h]
  · intro h
    simp [library_call, call_contract_helper, h]

/-- C6: with a class that has no constructor entry points, non-empty
constructor calldata is the fatal `ConstructorCalldataEmpty` /
`EmptyConstructorCalldata` error — in the deploy syscall it surfaces as a
handler error, not a guest-visible Failure response — while empty calldata
synthesizes an empty-constructor `CallInfo` (pushed onto `internal_calls` in
the syscall path) and succeeds; the Deploy transaction path behaves alike. -/
theorem deploy_empty_constructor_semantics (env : Env) (st : HandlerState)
    (address class_hash salt g : Nat) (calldata : List Nat) (cc : CompiledClass)
    (tx : DeployTx) :
    (env.get_contract_class class_hash = some cc →
      constructor_entry_points_empty cc = .ok true →
      ((calldata ≠ [] →
          execute_constructor_entry_point env st address class_hash calldata g =
            .error .ConstructorCalldataEmpty) ∧
       (calldata = [] →
          execute_constructor_entry_point env st address class_hash calldata g =
            .ok ({ st with internal_calls :=
                     st.internal_calls ++ [CallInfo.empty_constructor_call address
                        st.contract_address (some class_hash)] },
                 (CallInfo.empty_constructor_call address st.contract_address
                    (some class_hash)).result) ∧
          (CallInfo.empty_constructor_call address st.contract_address
             (some class_hash)).result.is_success = true))) ∧
    (env.get_contract_class class_hash = some cc →
      constructor_entry_points_empty cc = .ok true →
      env.deploy_contract
          (env.calculate_contract_address salt class_hash calldata st.contract_address)
          class_hash = .ok () →
      calldata ≠ [] →
      deploy env st class_hash salt calldata 0 g =
        .error (.State .ConstructorCalldataEmpty)) ∧
    (constructor_entry_points_empty tx.contract_class = .ok true →
      ((tx.constructor_calldata ≠ [] →
          handle_empty_constructor tx = .error .EmptyConstructorCalldata ∧
          apply_constructor_step tx = .error .EmptyConstructorCalldata) ∧
       (tx.constructor_calldata = [] →
          apply_constructor_step tx =
            .ok (some (CallInfo.empty_constructor_call tx.contract_address 0
                        (some tx.contract_hash)))))) := by
  refine ⟨fun hcls hempty => ⟨?_, ?_⟩, fun hcls hempty hdep hcd => ?_, fun hempty => ⟨?_, ?_⟩⟩
  · intro hcd
    simp [execute_constructor_entry_point, hcls, hempty,
      List.isEmpty_iff, hcd]
  · intro hcd
    subst hcd
    simp [execute_constructor_entry_point, hcls, hempty,
      CallInfo.empty_constructor_call, CallInfo.result]
  · simp [deploy, syscall_deploy, execute_constructor_entry_point, hcls, hempty,
      hdep, List.isEmpty_iff, hcd]
  · intro hcd
    have h1 : handle_empty_constructor tx = .error .EmptyConstructorCalldata := by
      simp [handle_empty_constructor, List.isEmpty_iff, hcd]
    exact ⟨h1, by simp [apply_constructor_step, hempty, h1]⟩
  · intro hcd
    simp [apply_constructor_step, hempty, handle_empty_constructor,
      List.isEmpty_iff, hcd]

/-- C10: the deploy syscall's gas update is the unchecked
`remaining_gas -= result.gas_consumed` (modelled as wrapping u128
subtraction): it equals the in-range difference exactly under the
precondition `gas_consumed ≤ remaining_gas`, and underflows past the budget
otherwise — whereas `call_contract_helper` saturates the same subtraction at
zero. -/
theorem deploy_gas_unchecked_subtraction (env : Env) (st : HandlerState)
    (class_hash salt g : Nat) (calldata : List Nat) (cc : CompiledClass)
    (ci : CallInfo) (rev : Option String) :
    (env.get_contract_class class_hash = some cc →
      constructor_entry_points_empty cc = .ok false →
      env.deploy_contract
          (env.calculate_contract_address salt class_hash calldata st.contract_address)
          class_hash = .ok () →
      env.execute
          { contract_address :=
              env.calculate_contract_address salt class_hash calldata st.contract_address
            calldata := calldata
            entry_point_selector := CONSTRUCTOR_ENTRY_POINT_SELECTOR
            caller_address := st.contract_address
            entry_point_type := .Constructor
            call_type := some .Call
            class_hash := none
            initial_gas := g } = .ok { call_info := some ci, revert_error := rev } →
      deploy env st class_hash salt calldata 0 g =
        .ok ({ st with internal_calls := st.internal_calls ++ [ci] },
             { gas := u128_wrapping_sub g ci.gas_consumed,
               body := some (if ci.result.is_success then
                   .Deploy (env.calculate_contract_address salt class_hash calldata
                      st.contract_address) ci.retdata
                 else .Failure ci.retdata) })) ∧
    (∀ a b : Nat, b ≤ a → a < 2 ^ 128 → u128_wrapping_sub a b = a - b) ∧
    (∀ a b : Nat, a < b → b < 2 ^ 128 →
      u128_wrapping_sub a b = a + 2 ^ 128 - b ∧ a < u128_wrapping_sub a b) ∧
    (∀ ep : ExecutionEntryPoint,
      env.execute ep = .ok { call_info := some ci, revert_error := rev } →
      g < ci.gas_consumed →
      ∃ st2 body2, call_contract_helper env st g ep = .ok (st2, { gas := 0, body := body2 })) := by
  have h128 : (2 : Nat) ^ 128 = 340282366920938463463374607431768211456 := by norm_num
  refine ⟨?_, ?_, ?_, ?_⟩
  · intro hcls hctor hdep hexec
    simp [deploy, syscall_deploy, execute_constructor_entry_point, hcls, hctor,
      hdep, hexec, CallInfo.result]
  · intro a b hba ha
    simp only [u128_wrapping_sub, h128]
    omega
  · intro a b hab hb
    simp only [u128_wrapping_sub, h128]
    omega
  · intro ep hexec hg
    have hz : g - ci.gas_consumed = 0 := by omega
    refine ⟨{ st with
               read_values := st.read_values ++ ci.storage_read_values
               accessed_keys := st.accessed_keys ∪ ci.accessed_storage_keys
               internal_calls := st.internal_calls ++ [ci] },
            if ci.failure_flag then some (.Failure ci.retdata)
              else some (.CallContract ci.retdata), ?_⟩
    simp [call_contract_helper, hexec, hz]

/-- C3 counterexample: at `current_block_number = 0`, `block_number = 0` the
claim's guard `block_number > current_block_number − 10` holds over the
integers (0 > −10), so the claim demands a "Block number out of range"
Failure; the code's u64 subtraction wraps to `2^64 − 10`, the guard is
false, and it instead reads the hash from storage and succeeds. -/
theorem get_block_hash_genesis_counterexample :
    ((0 : Int) > (0 : Int) - 10) ∧
    envC3.block_number = 0 ∧
    get_block_hash envC3 st0 0 5 =
      .ok (st0, { gas := 5, body := some (.GetBlockHash 77) }) ∧
    ResponseBody.GetBlockHash 77 ≠
      .Failure [feltOfStr "Block number out of range"] := by
  decide

/-- C3 amended: the guard compares `block_number` against the WRAPPING u64
difference `current_block_number − 10` (equal to the mathematical difference
whenever `current_block_number ≥ 10`); above it, a "Block number out of
range" Failure with gas unchanged; at or below it — the
`V_0_12_0_FIRST_BLOCK = 0` branch being dead — the response carries the hash
read from storage at `BLOCK_HASH_CONTRACT_ADDRESS` under the 32-byte
big-endian encoding of `block_number`, storage errors propagating. -/
theorem get_block_hash_wrapping_semantics (env : Env) (st : HandlerState)
    (block_number g : Nat) :
    (block_number > u64_wrapping_sub env.block_number 10 →
      get_block_hash env st block_number g =
        .ok (st, { gas := g,
                   body := some (.Failure [feltOfStr "Block number out of range"]) })) ∧
    (block_number ≤ u64_wrapping_sub env.block_number 10 →
      ((∀ h, env.get_storage_at BLOCK_HASH_CONTRACT_ADDRESS (toBytesBE32 block_number) =
            .ok h →
          get_block_hash env st block_number g =
            .ok (st, { gas := g, body := some (.GetBlockHash h) })) ∧
       (∀ e, env.get_storage_at BLOCK_HASH_CONTRACT_ADDRESS (toBytesBE32 block_number) =
            .error e →
          get_block_hash env st block_number g = .error (.State e)))) ∧
    (10 ≤ env.block_number → env.block_number < 2 ^ 64 →
      u64_wrapping_sub env.block_number 10 = env.block_number - 10) := by
  have h64 : (2 : Nat) ^ 64 = 18446744073709551616 := by norm_num
  refine ⟨?_, ?_, ?_⟩
  · intro hgt
    simp [get_block_hash, hgt]
  · intro hle
    have hngt : ¬ block_number > u64_wrapping_sub env.block_number 10 :=
      Nat.not_lt.mpr hle
    constructor
    · intro h hread
      simp [get_block_hash, hngt, V_0_12_0_FIRST_BLOCK, hread]
    · intro e hread
      simp [get_block_hash, hngt, V_0_12_0_FIRST_BLOCK, hread]
  · intro h10 hlt
    simp only [u64_wrapping_sub, h64]
    omega

/-! ## Keccak helper lemmas -/

lemma xorChunk_ok : ∀ (chunk state : List Nat), (∀ x ∈ chunk, x < 2 ^ 64) →
    xorChunk state chunk = .ok (xorChunkTotal state chunk) := by
  intro chunk
  induction chunk with
  | nil => intro state _; cases state <;> simp [xorChunk, xorChunkTotal]
  | cons v rest ih =>
    intro state hb
    cases state with
    | nil => simp [xorChunk, xorChunkTotal]
    | cons s ss =>
      have hv : v < 2 ^ 64 := hb v (by simp)
      norm_num at hv
      simp [xorChunk, xorChunkTotal, hv, ih ss (fun x hx => hb x (by simp [hx]))]

lemma xorChunk_error : ∀ (chunk state : List Nat), chunk.length ≤ state.length →
    (∃ x ∈ chunk, ¬ x < 2 ^ 64) →
    xorChunk state chunk = .error (.Conversion "Felt252" "u64") := by
  intro chunk
  induction chunk with
  | nil => intro state _ hex; simp at hex
  | cons v rest ih =>
    intro state hlen hex
    cases state with
    | nil => simp at hlen
    | cons s ss =>
      by_cases hv : v < 2 ^ 64
      · obtain ⟨x, hx, hxb⟩ := hex
        rcases List.mem_cons.mp hx with rfl | hx
        · exact absurd hv hxb
        · have hrec := ih ss (by simpa using hlen) ⟨x, hx, hxb⟩
          norm_num at hv
          simp [xorChunk, hv, hrec]
      · norm_num at hv
        simp [xorChunk, hv]

lemma keccakRounds_done : ∀ (chunks : List (List Nat)) (gas : Nat) (st : List Nat),
    (∀ c ∈ chunks, ∀ x ∈ c, x < 2 ^ 64) →
    chunks.length * KECCAK_ROUND_COST ≤ gas →
    keccakRounds chunks gas st =
      .ok (.done (gas - chunks.length * KECCAK_ROUND_COST) (keccakAbsorb chunks st)) := by
  intro chunks
  induction chunks with
  | nil => intro gas st _ _; simp [keccakRounds, keccakAbsorb]
  | cons c rest ih =>
    intro gas st hb hg
    simp only [List.length_cons] at hg
    have hnK : ¬ gas < KECCAK_ROUND_COST := by
      simp only [KECCAK_ROUND_COST] at *; omega
    have hxor := xorChunk_ok c st (hb c (by simp))
    have hrec := ih (gas - KECCAK_ROUND_COST) (f1600 (xorChunkTotal st c))
      (fun c2 hc2 => hb c2 (by simp [hc2]))
      (by simp only [KECCAK_ROUND_COST] at *; omega)
    have harith : gas - KECCAK_ROUND_COST - rest.length * KECCAK_ROUND_COST =
        gas - (rest.length + 1) * KECCAK_ROUND_COST := by
      simp only [KECCAK_ROUND_COST] at *; omega
    simp only [keccakRounds, if_neg hnK, hxor, hrec, keccakAbsorb,
      List.length_cons, harith]

lemma keccakRounds_starved : ∀ (chunks : List (List Nat)) (gas : Nat) (st : List Nat),
    (∀ c ∈ chunks, ∀ x ∈ c, x < 2 ^ 64) →
    gas < chunks.length * KECCAK_ROUND_COST →
    keccakRounds chunks gas st = .ok (.outOfGas (gas % KECCAK_ROUND_COST)) := by
  intro chunks
  induction chunks with
  | nil => intro gas st _ hg; simp at hg
  | cons c rest ih =>
    intro gas st hb hg
    simp only [List.length_cons] at hg
    by_cases hK : gas < KECCAK_ROUND_COST
    · have hmod : gas % KECCAK_ROUND_COST = gas := Nat.mod_eq_of_lt hK
      simp [keccakRounds, hK, hmod]
    · have hxor := xorChunk_ok c st (hb c (by simp))
      have hrec := ih (gas - KECCAK_ROUND_COST) (f1600 (xorChunkTotal st c))
        (fun c2 hc2 => hb c2 (by simp [hc2]))
        (by simp only [KECCAK_ROUND_COST] at *; omega)
      have hmod : (gas - KECCAK_ROUND_COST) % KECCAK_ROUND_COST =
          gas % KECCAK_ROUND_COST := by
        simp only [KECCAK_ROUND_COST] at *; omega
      simp only [keccakRounds, if_neg hK, hxor, hrec, hmod]

lemma chunksOf17Aux_fuel : ∀ (fuel1 fuel2 : Nat) (l : List Nat),
    l.length ≤ fuel1 → l.length ≤ fuel2 →
    chunksOf17Aux fuel1 l = chunksOf17Aux fuel2 l := by
  intro fuel1
  induction fuel1 with
  | zero =>
    intro fuel2 l h1 _
    have hnil : l = [] := List.length_eq_zero.mp (by omega)
    subst hnil
    cases fuel2 <;> simp [chunksOf17Aux]
  | succ fuel ih =>
    intro fuel2 l h1 h2
    cases l with
    | nil => cases fuel2 <;> simp [chunksOf17Aux]
    | cons x xs =>
      cases fuel2 with
      | zero => simp at h2
      | succ f2 =>
        simp only [chunksOf17Aux]
        rw [ih f2 ((x :: xs).drop 17)
          (by simp only [List.length_drop, List.length_cons] at *; omega)
          (by simp only [List.length_drop, List.length_cons] at *; omega)]

lemma chunksOf17_nil : chunksOf17 [] = [] := rfl

lemma chunksOf17_cons (x : Nat) (xs : List Nat) :
    chunksOf17 (x :: xs) = ((x :: xs).take 17) :: chunksOf17 ((x :: xs).drop 17) := by
  show chunksOf17Aux (x :: xs).length (x :: xs) = _
  simp only [List.length_cons, chunksOf17Aux]
  rw [chunksOf17Aux_fuel xs.length ((x :: xs).drop 17).length ((x :: xs).drop 17)
    (by simp only [List.length_drop, List.length_cons]; omega) (le_refl _)]
  rfl

lemma chunksOf17_length : ∀ (n : Nat) (l : List Nat), l.length = 17 * n →
    (chunksOf17 l).length = n := by
  intro n
  induction n with
  | zero =>
    intro l hl
    have hnil : l = [] := List.length_eq_zero.mp (by omega)
    subst hnil
    simp [chunksOf17_nil]
  | succ n ih =>
    intro l hl
    cases l with
    | nil => simp at hl
    | cons x xs =>
      rw [chunksOf17_cons]
      simp only [List.length_cons]
      rw [ih ((x :: xs).drop 17) (by simp only [List.length_drop] at *; simp at *; omega)]

lemma chunksOf17_subset : ∀ (n : Nat) (l : List Nat), l.length ≤ n →
    ∀ c ∈ chunksOf17 l, ∀ x ∈ c, x ∈ l := by
  intro n
  induction n with
  | zero =>
    intro l hl c hc
    have hnil : l = [] := List.length_eq_zero.mp (by omega)
    subst hnil
    simp [chunksOf17_nil] at hc
  | succ n ih =>
    intro l hl c hc x hx
    cases l with
    | nil => simp [chunksOf17_nil] at hc
    | cons y ys =>
      rw [chunksOf17_cons] at hc
      rcases List.mem_cons.mp hc with rfl | hmem
      · exact List.take_subset _ _ hx
      · have hdrop : ((y :: ys).drop 17).length ≤ n := by
          simp only [List.length_drop, List.length_cons] at *; omega
        exact List.drop_subset _ _ (ih _ hdrop c hmem x hx)

lemma getD_lt_64 (A : List Nat) (h : ∀ x ∈ A, x < 2 ^ 64) (i : Nat) :
    A.getD i 0 < 2 ^ 64 := by
  rcases Nat.lt_or_ge i A.length with hi | hi
  · rw [List.getD_eq_getElem A 0 hi]
    exact h _ (List.getElem_mem hi)
  · rw [List.getD_eq_default A 0 hi]
    positivity

lemma rotl64_lt (a n : Nat) : rotl64 a n < 2 ^ 64 := by
  refine Nat.or_lt_two_pow (Nat.mod_lt _ (by positivity)) ?_
  calc (a % 2 ^ 64) >>> (64 - n) ≤ a % 2 ^ 64 := by
        rw [Nat.shiftRight_eq_div_pow]; exact Nat.div_le_self _ _
    _ < 2 ^ 64 := Nat.mod_lt _ (by positivity)

lemma keccakTheta_bounded (A : List Nat) (h : ∀ x ∈ A, x < 2 ^ 64) :
    ∀ x ∈ keccakTheta A, x < 2 ^ 64 := by
  intro x hx
  simp only [keccakTheta, List.mem_map, List.mem_range] at hx
  obtain ⟨i, _, rfl⟩ := hx
  have hC : ∀ j : Nat, (A.getD j 0 ^^^ A.getD (j + 5) 0 ^^^ A.getD (j + 10) 0 ^^^
      A.getD (j + 15) 0 ^^^ A.getD (j + 20) 0) < 2 ^ 64 := fun j =>
    Nat.xor_lt_two_pow (Nat.xor_lt_two_pow (Nat.xor_lt_two_pow
      (Nat.xor_lt_two_pow (getD_lt_64 A h j) (getD_lt_64 A h (j + 5)))
      (getD_lt_64 A h (j + 10))) (getD_lt_64 A h (j + 15))) (getD_lt_64 A h (j + 20))
  exact Nat.xor_lt_two_pow (getD_lt_64 A h i)
    (Nat.xor_lt_two_pow (hC _) (rotl64_lt _ _))

lemma keccakRhoPi_bounded (A : List Nat) : ∀ x ∈ keccakRhoPi A, x < 2 ^ 64 := by
  intro x hx
  simp only [keccakRhoPi, List.mem_map, List.mem_range] at hx
  obtain ⟨i, _, rfl⟩ := hx
  exact rotl64_lt _ _

lemma keccakChi_bounded (B : List Nat) (h : ∀ x ∈ B, x < 2 ^ 64) :
    ∀ x ∈ keccakChi B, x < 2 ^ 64 := by
  intro x hx
  simp only [keccakChi, List.mem_map, List.mem_range] at hx
  obtain ⟨i, _, rfl⟩ := hx
  exact Nat.xor_lt_two_pow (getD_lt_64 B h i)
    (lt_of_le_of_lt Nat.and_le_right (getD_lt_64 B h _))

lemma keccakRound_bounded (A : List Nat) (rc : Nat) (hrc : rc < 2 ^ 64) :
    ∀ x ∈ keccakRound A rc, x < 2 ^ 64 := by
  have hB := keccakRhoPi_bounded (keccakTheta A)
  have hC := keccakChi_bounded _ hB
  intro x hx
  rw [keccakRound] at hx
  rcases hchi : keccakChi (keccakRhoPi (keccakTheta A)) with _ | ⟨a0, rest⟩ <;>
    rw [hchi] at hx
  · simp at hx
  · rcases List.mem_cons.mp hx with rfl | hmem
    · exact Nat.xor_lt_two_pow (hC a0 (by rw [hchi]; simp)) hrc
    · exact hC x (by rw [hchi]; simp [hmem])

lemma foldl_keccakRound_bounded : ∀ (l : List Nat) (A : List Nat),
    (∀ rc ∈ l, rc < 2 ^ 64) → (∀ x ∈ A, x < 2 ^ 64) →
    ∀ x ∈ List.foldl keccakRound A l, x < 2 ^ 64 := by
  intro l
  induction l with
  | nil => intro A _ hA; simpa using hA
  | cons rc rest ih =>
    intro A hl hA
    simp only [List.foldl_cons]
    exact ih (keccakRound A rc) (fun r hr => hl r (by simp [hr]))
      (keccakRound_bounded A rc (hl rc (by simp)))

lemma f1600_bounded (A : List Nat) : ∀ x ∈ f1600 A, x < 2 ^ 64 := by
  have hrc : ∀ rc ∈ KECCAK_RC, rc < 2 ^ 64 := by decide
  rw [f1600, show KECCAK_RC = 0x0000000000000001 :: KECCAK_RC.tail from rfl,
    List.foldl_cons]
  exact foldl_keccakRound_bounded _ _ (fun r hr => hrc r (by rw [
    show KECCAK_RC = 0x0000000000000001 :: KECCAK_RC.tail from rfl]; simp [hr]))
    (keccakRound_bounded A _ (by norm_num))

lemma keccakAbsorb_bounded : ∀ (chunks : List (List Nat)) (st : List Nat),
    (∀ x ∈ st, x < 2 ^ 64) →
    ∀ x ∈ keccakAbsorb chunks st, x < 2 ^ 64 := by
  intro chunks
  induction chunks with
  | nil => intro st hst; simpa [keccakAbsorb] using hst
  | cons c rest ih =>
    intro st hst
    simp only [keccakAbsorb]
    exact ih _ (f1600_bounded _)

lemma feltShl64Add_eq (hi lo : Nat) (hhi : hi < 2 ^ 64) (hlo : lo < 2 ^ 64) :
    feltShl64Add hi lo = hi * 2 ^ 64 + lo := by
  have h64 : (2 : Nat) ^ 64 = 18446744073709551616 := by norm_num
  have hP : PRIME =
      3618502788666131213697322783095070105623107215331596699973092056135872020481 := by
    norm_num [PRIME]
  rw [h64] at hhi hlo ⊢
  rw [feltShl64Add, h64, hP]
  omega

set_option maxRecDepth 10000 in
/-- C4: keccak over `17·n` felts each fitting 64 bits with gas at least
`n · 180000`: the 25-lane state starts at zero, each 17-felt chunk is XORed
into lanes 0..16 and keccak-f[1600] applied, and the success response carries
`hash_low = state[1]·2^64 + state[0]`, `hash_high = state[3]·2^64 + state[2]`
(in range, so the felt arithmetic is exact); the empty input yields `(0, 0)`
with gas unchanged (also shown concretely for one chunk of zeros, whose
digest is keccak-f[1600] of the zero state); a first-chunk element exceeding
64 bits fails with a `Conversion` error. -/
theorem keccak_absorb_spec (st : HandlerState) :
    (∀ (input : List Nat) (g n : Nat), input.length = 17 * n →
      (∀ x ∈ input, x < 2 ^ 64) → n * KECCAK_ROUND_COST ≤ g →
      keccak st input g =
        .ok (st, { gas := g - n * KECCAK_ROUND_COST,
                   body := some (.Keccak
                     (keccakHashLow (keccakAbsorb (chunksOf17 input) keccakInitState))
                     (keccakHashHigh (keccakAbsorb (chunksOf17 input) keccakInitState))) }) ∧
      keccakHashLow (keccakAbsorb (chunksOf17 input) keccakInitState) =
        (keccakAbsorb (chunksOf17 input) keccakInitState).getD 1 0 * 2 ^ 64 +
          (keccakAbsorb (chunksOf17 input) keccakInitState).getD 0 0 ∧
      keccakHashHigh (keccakAbsorb (chunksOf17 input) keccakInitState) =
        (keccakAbsorb (chunksOf17 input) keccakInitState).getD 3 0 * 2 ^ 64 +
          (keccakAbsorb (chunksOf17 input) keccakInitState).getD 2 0) ∧
    (∀ g, keccak st [] g = .ok (st, { gas := g, body := some (.Keccak 0 0) })) ∧
    keccak st0 (List.replicate 17 0) 180000 =
      .ok (st0, { gas := 0, body := some (.Keccak
          0x84d5ccf933c0478af1258f7940e1dde7 0xbd1547306f80494dd598261ea65aa9ee) }) ∧
    (∀ (input : List Nat) (g n : Nat), input.length = 17 * n → 1 ≤ n →
      KECCAK_ROUND_COST ≤ g → (∃ x ∈ input.take 17, ¬ x < 2 ^ 64) →
      keccak st input g = .error (.Conversion "Felt252" "u64")) := by
  refine ⟨?_, ?_, ?_, ?_⟩
  · intro input g n hlen hbound hgas
    have hmod : input.length % 17 = 0 := by rw [hlen]; exact Nat.mul_mod_right 17 n
    have hchunklen := chunksOf17_length n input hlen
    have hcb : ∀ c ∈ chunksOf17 input, ∀ x ∈ c, x < 2 ^ 64 :=
      fun c hc x hx => hbound x (chunksOf17_subset input.length input (le_refl _) c hc x hx)
    have hrounds := keccakRounds_done (chunksOf17 input) g keccakInitState hcb
      (by rw [hchunklen]; exact hgas)
    have habs : ∀ x ∈ keccakAbsorb (chunksOf17 input) keccakInitState, x < 2 ^ 64 :=
      keccakAbsorb_bounded _ _ (by
        intro x hx
        simp only [keccakInitState, List.mem_replicate] at hx
        rw [hx.2]; positivity)
    refine ⟨?_, ?_, ?_⟩
    · simp only [keccak, hmod]
      norm_num
      rw [hrounds, hchunklen]
    · rw [keccakHashLow]
      exact feltShl64Add_eq _ _ (getD_lt_64 _ habs 1) (getD_lt_64 _ habs 0)
    · rw [keccakHashHigh]
      exact feltShl64Add_eq _ _ (getD_lt_64 _ habs 3) (getD_lt_64 _ habs 2)
  · intro g
    have h0 : keccakHashLow keccakInitState = 0 := by decide
    have h1 : keccakHashHigh keccakInitState = 0 := by decide
    simp [keccak, chunksOf17_nil, keccakRounds, h0, h1]
  · decide
  · intro input g n hlen hn hgas hex
    cases input with
    | nil => simp at hlen; omega
    | cons y ys =>
      have hmod : (y :: ys).length % 17 = 0 := by
        rw [hlen]; exact Nat.mul_mod_right 17 n
      have hxe := xorChunk_error ((y :: ys).take 17) keccakInitState
        (by simp only [keccakInitState, List.length_take, List.length_replicate]; omega)
        hex
      have hnK : ¬ g < KECCAK_ROUND_COST := Nat.not_lt.mpr hgas
      simp only [keccak, hmod]
      norm_num
      rw [chunksOf17_cons]
      simp only [keccakRounds, if_neg hnK, hxe]

/-- C5: keccak debits 180000 gas per 17-felt round before absorbing it; when
the remaining gas drops below 180000 at the start of a round, the response is
a `"Syscall out of gas"` Failure whose gas field keeps the debits of the
rounds already absorbed (`gas mod 180000` after `gas / 180000 < n` full
rounds). -/
theorem keccak_starvation (st : HandlerState) (input : List Nat) (g n : Nat)
    (hlen : input.length = 17 * n)
    (hbound : ∀ x ∈ input, x < 2 ^ 64)
    (hgas : g < n * KECCAK_ROUND_COST) :
    keccak st input g =
      .ok (st, { gas := g % KECCAK_ROUND_COST,
                 body := some (.Failure [feltOfStr "Syscall out of gas"]) }) ∧
    g % KECCAK_ROUND_COST = g - g / KECCAK_ROUND_COST * KECCAK_ROUND_COST ∧
    g / KECCAK_ROUND_COST < n := by
  have hmod : input.length % 17 = 0 := by rw [hlen]; exact Nat.mul_mod_right 17 n
  have hchunklen := chunksOf17_length n input hlen
  have hcb : ∀ c ∈ chunksOf17 input, ∀ x ∈ c, x < 2 ^ 64 :=
    fun c hc x hx => hbound x (chunksOf17_subset input.length input (le_refl _) c hc x hx)
  have hrounds := keccakRounds_starved (chunksOf17 input) g keccakInitState hcb
    (by rw [hchunklen]; exact hgas)
  refine ⟨?_, ?_, ?_⟩
  · simp only [keccak, hmod]
    norm_num
    rw [hrounds]
  · simp only [KECCAK_ROUND_COST]; omega
  · simp only [KECCAK_ROUND_COST] at *; omega

/-- C5 witness: the spec's concrete starvation scenario — a 34-felt input
with 200000 gas absorbs the first chunk and fails the second round with
gas 20000. -/
theorem keccak_starvation_witness :
    keccak st0 (List.replicate 34 0) 200000 =
      .ok (st0, { gas := 20000,
                  body := some (.Failure [feltOfStr "Syscall out of gas"]) }) ∧
    (20000 : Nat) = 200000 - 200000 / KECCAK_ROUND_COST * KECCAK_ROUND_COST ∧
    200000 / KECCAK_ROUND_COST < 2 :=
  keccak_starvation st0 (List.replicate 34 0) 200000 2 (by decide) (by decide)
    (by decide)

/-! ## Gas lemmas for the dispatcher-level claim -/

lemma u128_wrapping_sub_le (a b : Nat) (hba : b ≤ a) : u128_wrapping_sub a b ≤ a := by
  have h128 : (2 : Nat) ^ 128 = 340282366920938463463374607431768211456 := by norm_num
  simp only [u128_wrapping_sub, h128]
  omega

lemma storage_read_gas (env : Env) (st : HandlerState) (r k g : Nat)
    (st2 : HandlerState) (resp : SyscallResponse) :
    storage_read env st r k g = .ok (st2, resp) → resp.gas = g := by
  intro h
  simp only [storage_read] at h
  split at h
  · simp only [Except.ok.injEq, Prod.mk.injEq] at h
    rw [← h.2]
  · split at h
    · simp at h
    · simp only [Except.ok.injEq, Prod.mk.injEq] at h
      rw [← h.2]

lemma storage_write_gas (st : HandlerState) (r k v g : Nat)
    (st2 : HandlerState) (resp : SyscallResponse) :
    storage_write st r k v g = .ok (st2, resp) → resp.gas = g := by
  intro h
  simp only [storage_write] at h
  split at h <;>
  · simp only [Except.ok.injEq, Prod.mk.injEq] at h
    rw [← h.2]

lemma replace_class_gas (env : Env) (st : HandlerState) (ch g : Nat)
    (st2 : HandlerState) (resp : SyscallResponse) :
    replace_class env st ch g = .ok (st2, resp) → resp.gas = g := by
  intro h
  simp only [replace_class] at h
  split at h
  · simp at h
  · simp only [Except.ok.injEq, Prod.mk.injEq] at h
    rw [← h.2]

lemma get_block_hash_gas (env : Env) (st : HandlerState) (bn g : Nat)
    (st2 : HandlerState) (resp : SyscallResponse) :
    get_block_hash env st bn g = .ok (st2, resp) → resp.gas = g := by
  intro h
  simp only [get_block_hash] at h
  split at h
  · simp only [Except.ok.injEq, Prod.mk.injEq] at h
    rw [← h.2]
  · split at h
    · simp only [Except.ok.injEq, Prod.mk.injEq] at h
      rw [← h.2]
    · split at h
      · simp at h
      · simp only [Except.ok.injEq, Prod.mk.injEq] at h
        rw [← h.2]

lemma call_contract_helper_gas (env : Env) (st : HandlerState) (g : Nat)
    (ep : ExecutionEntryPoint) (st2 : HandlerState) (resp : SyscallResponse) :
    call_contract_helper env st g ep = .ok (st2, resp) → resp.gas ≤ g := by
  intro h
  simp only [call_contract_helper] at h
  split at h
  · simp at h
  · split at h
    · simp at h
    · simp only [Except.ok.injEq, Prod.mk.injEq] at h
      rw [← h.2]
      exact Nat.sub_le _ _

lemma deploy_gas (env : Env) (st : HandlerState) (ch salt dfz g : Nat)
    (cd : List Nat) (st2 : HandlerState) (resp : SyscallResponse) :
    deploy env st ch salt cd dfz g = .ok (st2, resp) →
    deploy_constructor_gas env st (.Deploy ch salt cd dfz) g ≤ g →
    resp.gas ≤ g := by
  intro h hdep
  simp only [deploy] at h
  split at h
  · simp at h
  · rename_i st3 addr result heq
    simp only [Except.ok.injEq, Prod.mk.injEq] at h
    rw [← h.2]
    simp only [deploy_constructor_gas, heq] at hdep
    exact u128_wrapping_sub_le g result.gas_consumed hdep

lemma keccakRounds_done_inv : ∀ (chunks : List (List Nat)) (gas : Nat)
    (st : List Nat) (g2 : Nat) (s2 : List Nat),
    keccakRounds chunks gas st = .ok (.done g2 s2) →
    g2 = gas - chunks.length * KECCAK_ROUND_COST ∧
    chunks.length * KECCAK_ROUND_COST ≤ gas := by
  intro chunks
  induction chunks with
  | nil =>
    intro gas st g2 s2 h
    simp only [keccakRounds, Except.ok.injEq] at h
    cases h
    simp
  | cons c rest ih =>
    intro gas st g2 s2 h
    simp only [keccakRounds] at h
    split at h
    · simp at h
    · split at h
      · simp at h
      · have hrec := ih (gas - KECCAK_ROUND_COST) _ g2 s2 h
        simp only [List.length_cons, KECCAK_ROUND_COST] at *
        omega

lemma keccakRounds_outOfGas_inv : ∀ (chunks : List (List Nat)) (gas : Nat)
    (st : List Nat) (g2 : Nat),
    keccakRounds chunks gas st = .ok (.outOfGas g2) →
    g2 = gas % KECCAK_ROUND_COST ∧
    gas / KECCAK_ROUND_COST < chunks.length := by
  intro chunks
  induction chunks with
  | nil =>
    intro gas st g2 h
    simp [keccakRounds] at h
  | cons c rest ih =>
    intro gas st g2 h
    simp only [keccakRounds] at h
    split at h
    · rename_i hK
      simp only [Except.ok.injEq, KeccakLoopResult.outOfGas.injEq] at h
      subst h
      simp only [List.length_cons, KECCAK_ROUND_COST] at *
      omega
    · split at h
      · simp at h
      · have hrec := ih (gas - KECCAK_ROUND_COST) _ g2 h
        rename_i hK _ _
        simp only [List.length_cons, KECCAK_ROUND_COST] at *
        omega

lemma keccak_gas (st : HandlerState) (input : List Nat) (g : Nat)
    (st2 : HandlerState) (resp : SyscallResponse) :
    keccak st input g = .ok (st2, resp) →
    resp.gas = g - KECCAK_ROUND_COST * keccakRoundsDebited input g ∧
    KECCAK_ROUND_COST * keccakRoundsDebited input g ≤ g := by
  intro h
  simp only [keccak] at h
  split at h
  · rename_i hmod
    simp only [Except.ok.injEq, Prod.mk.injEq] at h
    rw [← h.2]
    simp [keccakRoundsDebited, hmod]
  · rename_i hmod
    have hmod0 : input.length % 17 = 0 := by
      by_contra hc
      exact hmod hc
    have hlen : input.length = 17 * (input.length / 17) := by omega
    have hchunks : (chunksOf17 input).length = input.length / 17 :=
      chunksOf17_length _ input hlen
    split at h
    · simp at h
    · rename_i g2 heq
      obtain ⟨hg2, hdiv⟩ := keccakRounds_outOfGas_inv _ _ _ _ heq
      rw [hchunks] at hdiv
      simp only [Except.ok.injEq, Prod.mk.injEq] at h
      rw [← h.2, hg2]
      have hdeb : keccakRoundsDebited input g = g / KECCAK_ROUND_COST := by
        simp only [keccakRoundsDebited, hmod0]
        simp only [KECCAK_ROUND_COST] at *
        norm_num
        omega
      rw [hdeb]
      simp only [KECCAK_ROUND_COST]
      constructor <;> omega
    · rename_i g2 s2 heq
      obtain ⟨hg2, hle⟩ := keccakRounds_done_inv _ _ _ _ _ heq
      rw [hchunks] at hg2 hle
      simp only [Except.ok.injEq, Prod.mk.injEq] at h
      rw [← h.2, hg2]
      have hdeb : keccakRoundsDebited input g = input.length / 17 := by
        simp only [keccakRoundsDebited, hmod0]
        simp only [KECCAK_ROUND_COST] at *
        norm_num
        omega
      rw [hdeb]
      simp only [KECCAK_ROUND_COST] at *
      constructor <;> omega

/-- C2 counterexample: a storage_read dispatched with `initial_gas = 0`
takes the dispatcher's out-of-gas path, so `gas_after = 0 = initial_gas`
although the syscall's required gas is 5000 ≠ 0 and no keccak round is
involved — refuting "equality iff the required gas is zero and no keccak
rounds". -/
theorem gas_after_equality_counterexample :
    syscall env0 st0 (.StorageRead 0 7) 0 =
      .ok (st0, { gas := 0, body := some (.Failure [feltOfStr "Out of gas"]) }) ∧
    required_syscall_gas (.StorageRead 0 7) = 5000 ∧
    keccakNoRounds (.StorageRead 0 7) 0 = false := by
  decide

set_option maxRecDepth 4000 in
/-- C2 amended: for every syscall the dispatcher completes with a response,
`gas_after ≤ initial_gas` (for deploy, under the precondition that the
constructor's reported `gas_consumed` does not exceed the remaining budget —
C10 covers the unchecked subtraction otherwise); and equality holds iff
`initial_gas` is below the syscall's required gas (the dispatcher's
out-of-gas Failure, which skips execution), or the syscall is a keccak that
debits no round. -/
theorem syscall_gas_after_le_initial (env : Env) (st : HandlerState)
    (request : SyscallRequest) (initial_gas : Nat) (st2 : HandlerState)
    (resp : SyscallResponse)
    (hdep : required_syscall_gas request ≤ initial_gas →
      deploy_constructor_gas env st request
          (initial_gas - required_syscall_gas request) ≤
        initial_gas - required_syscall_gas request)
    (h : syscall env st request initial_gas = .ok (st2, resp)) :
    resp.gas ≤ initial_gas ∧
    (resp.gas = initial_gas ↔
      initial_gas < required_syscall_gas request ∨
      keccakNoRounds request initial_gas = true) := by
  cases request with
  | GetBlockTimestamp =>
    have hread : read_syscall_request .GetBlockTimestamp =
        .error (.UnknownSyscall "get_block_timestamp") := rfl
    simp only [syscall, hread] at h
    exact absurd h (by simp)
  | GetBlockHash bn =>
    have hread : read_syscall_request (.GetBlockHash bn) =
        .error (.UnknownSyscall "get_block_hash") := rfl
    simp only [syscall, hread] at h
    exact absurd h (by simp)
  | GetBlockNumber =>
    have hread : read_syscall_request .GetBlockNumber = .ok .GetBlockNumber := rfl
    have hcost : SYSCALL_GAS_COST (SyscallRequest.name .GetBlockNumber) = none := by
      simp only [SyscallRequest.name]; decide
    simp only [syscall, hread, hcost] at h
    exact absurd h (by simp)
  | StorageRead reserved key =>
    have hreq : required_syscall_gas (.StorageRead reserved key) = 5000 := by
      simp only [required_syscall_gas, SyscallRequest.name]; decide
    have hkec : keccakNoRounds (.StorageRead reserved key) initial_gas = false := rfl
    rw [hreq, hkec]
    simp only [Bool.false_eq_true, or_false]
    have hread : read_syscall_request (.StorageRead reserved key) =
        .ok (.StorageRead reserved key) := rfl
    have hcost : SYSCALL_GAS_COST (SyscallRequest.name (.StorageRead reserved key)) =
        some 15000 := by
      simp only [SyscallRequest.name]; decide
    simp only [syscall, hread, hcost, execute_syscall] at h
    norm_num [SYSCALL_BASE, STEP] at h
    by_cases hlt : initial_gas < 5000
    · rw [if_pos hlt] at h
      simp only [Except.ok.injEq, Prod.mk.injEq] at h
      rw [← h.2]
      exact ⟨le_refl _, by simp [hlt]⟩
    · rw [if_neg hlt] at h
      have hg := storage_read_gas env st reserved key (initial_gas - 5000) st2 resp h
      rw [hg]
      constructor
      · omega
      · omega
  | StorageWrite reserved key value =>
    have hreq : required_syscall_gas (.StorageWrite reserved key value) = 5000 := by
      simp only [required_syscall_gas, SyscallRequest.name]; decide
    have hkec : keccakNoRounds (.StorageWrite reserved key value) initial_gas = false := rfl
    rw [hreq, hkec]
    simp only [Bool.false_eq_true, or_false]
    have hread : read_syscall_request (.StorageWrite reserved key value) =
        .ok (.StorageWrite reserved key value) := rfl
    have hcost : SYSCALL_GAS_COST (SyscallRequest.name (.StorageWrite reserved key value)) =
        some 15000 := by
      simp only [SyscallRequest.name]; decide
    simp only [syscall, hread, hcost, execute_syscall] at h
    norm_num [SYSCALL_BASE, STEP] at h
    by_cases hlt : initial_gas < 5000
    · rw [if_pos hlt] at h
      simp only [Except.ok.injEq, Prod.mk.injEq] at h
      rw [← h.2]
      exact ⟨le_refl _, by simp [hlt]⟩
    · rw [if_neg hlt] at h
      have hg := storage_write_gas st reserved key value (initial_gas - 5000) st2 resp h
      rw [hg]
      constructor
      · omega
      · omega
  | ReplaceClass class_hash =>
    have hreq : required_syscall_gas (.ReplaceClass class_hash) = 5000 := by
      simp only [required_syscall_gas, SyscallRequest.name]; decide
    have hkec : keccakNoRounds (.ReplaceClass class_hash) initial_gas = false := rfl
    rw [hreq, hkec]
    simp only [Bool.false_eq_true, or_false]
    have hread : read_syscall_request (.ReplaceClass class_hash) =
        .ok (.ReplaceClass class_hash) := rfl
    have hcost : SYSCALL_GAS_COST (SyscallRequest.name (.ReplaceClass class_hash)) =
        some 15000 := by
      simp only [SyscallRequest.name]; decide
    simp only [syscall, hread, hcost, execute_syscall] at h
    norm_num [SYSCALL_BASE, STEP] at h
    by_cases hlt : initial_gas < 5000
    · rw [if_pos hlt] at h
      simp only [Except.ok.injEq, Prod.mk.injEq] at h
      rw [← h.2]
      exact ⟨le_refl _, by simp [hlt]⟩
    · rw [if_neg hlt] at h
      have hg := replace_class_gas env st class_hash (initial_gas - 5000) st2 resp h
      rw [hg]
      constructor
      · omega
      · omega
  | SendMessageToL1 to_address payload =>
    have hreq : required_syscall_gas (.SendMessageToL1 to_address payload) = 5000 := by
      simp only [required_syscall_gas, SyscallRequest.name]; decide
    have hkec : keccakNoRounds (.SendMessageToL1 to_address payload) initial_gas =
        false := rfl
    rw [hreq, hkec]
    simp only [Bool.false_eq_true, or_false]
    have hread : read_syscall_request (.SendMessageToL1 to_address payload) =
        .ok (.SendMessageToL1 to_address payload) := rfl
    have hcost : SYSCALL_GAS_COST
        (SyscallRequest.name (.SendMessageToL1 to_address payload)) = some 15000 := by
      simp only [SyscallRequest.name]; decide
    simp only [syscall, hread, hcost, execute_syscall] at h
    norm_num [SYSCALL_BASE, STEP] at h
    by_cases hlt : initial_gas < 5000
    · rw [if_pos hlt] at h
      simp only [Except.ok.injEq, Prod.mk.injEq] at h
      rw [← h.2]
      exact ⟨le_refl _, by simp [hlt]⟩
    · rw [if_neg hlt] at h
      simp only [send_message_to_l1, Except.ok.injEq, Prod.mk.injEq] at h
      have hg : resp.gas = initial_gas - 5000 := by rw [← h.2]
      rw [hg]
      constructor
      · omega
      · omega
  | EmitEvent keys data =>
    have hreq : required_syscall_gas (.EmitEvent keys data) = 1000 := by
      simp only [required_syscall_gas, SyscallRequest.name]; decide
    have hkec : keccakNoRounds (.EmitEvent keys data) initial_gas = false := rfl
    rw [hreq, hkec]
    simp only [Bool.false_eq_true, or_false]
    have hread : read_syscall_request (.EmitEvent keys data) =
        .ok (.EmitEvent keys data) := rfl
    have hcost : SYSCALL_GAS_COST (SyscallRequest.name (.EmitEvent keys data)) =
        some 11000 := by
      simp only [SyscallRequest.name]; decide
    simp only [syscall, hread, hcost, execute_syscall] at h
    norm_num [SYSCALL_BASE, STEP] at h
    by_cases hlt : initial_gas < 1000
    · rw [if_pos hlt] at h
      simp only [Except.ok.injEq, Prod.mk.injEq] at h
      rw [← h.2]
      exact ⟨le_refl _, by simp [hlt]⟩
    · rw [if_neg hlt] at h
      simp only [emit_event, Except.ok.injEq, Prod.mk.injEq] at h
      have hg : resp.gas = initial_gas - 1000 := by rw [← h.2]
      rw [hg]
      constructor
      · omega
      · omega
  | GetExecutionInfo =>
    have hreq : required_syscall_gas .GetExecutionInfo = 1000 := by
      simp only [required_syscall_gas, SyscallRequest.name]; decide
    have hkec : keccakNoRounds .GetExecutionInfo initial_gas = false := rfl
    rw [hreq, hkec]
    simp only [Bool.false_eq_true, or_false]
    have hread : read_syscall_request .GetExecutionInfo = .ok .GetExecutionInfo := rfl
    have hcost : SYSCALL_GAS_COST (SyscallRequest.name .GetExecutionInfo) =
        some 11000 := by
      simp only [SyscallRequest.name]; decide
    simp only [syscall, hread, hcost, execute_syscall] at h
    norm_num [SYSCALL_BASE, STEP] at h
    by_cases hlt : initial_gas < 1000
    · rw [if_pos hlt] at h
      simp only [Except.ok.injEq, Prod.mk.injEq] at h
      rw [← h.2]
      exact ⟨le_refl _, by simp [hlt]⟩
    · rw [if_neg hlt] at h
      simp only [get_execution_info, Except.ok.injEq, Prod.mk.injEq] at h
      have hg : resp.gas = initial_gas - 1000 := by rw [← h.2]
      rw [hg]
      constructor
      · omega
      · omega
  | CallContract contract_address selector calldata =>
    have hreq : required_syscall_gas
        (.CallContract contract_address selector calldata) = 61000 := by
      simp only [required_syscall_gas, SyscallRequest.name]; decide
    have hkec : keccakNoRounds (.CallContract contract_address selector calldata)
        initial_gas = false := rfl
    rw [hreq, hkec]
    simp only [Bool.false_eq_true, or_false]
    have hread : read_syscall_request (.CallContract contract_address selector calldata) =
        .ok (.CallContract contract_address selector calldata) := rfl
    have hcost : SYSCALL_GAS_COST
        (SyscallRequest.name (.CallContract contract_address selector calldata)) =
        some 71000 := by
      simp only [SyscallRequest.name]; decide
    simp only [syscall, hread, hcost, execute_syscall] at h
    norm_num [SYSCALL_BASE, STEP] at h
    by_cases hlt : initial_gas < 61000
    · rw [if_pos hlt] at h
      simp only [Except.ok.injEq, Prod.mk.injEq] at h
      rw [← h.2]
      exact ⟨le_refl _, by simp [hlt]⟩
    · rw [if_neg hlt] at h
      simp only [call_contract] at h
      have hle := call_contract_helper_gas env st (initial_gas - 61000) _ st2 resp h
      constructor
      · omega
      · omega
  | LibraryCall class_hash selector calldata =>
    have hreq : required_syscall_gas
        (.LibraryCall class_hash selector calldata) = 61000 := by
      simp only [required_syscall_gas, SyscallRequest.name]; decide
    have hkec : keccakNoRounds (.LibraryCall class_hash selector calldata)
        initial_gas = false := rfl
    rw [hreq, hkec]
    simp only [Bool.false_eq_true, or_false]
    have hread : read_syscall_request (.LibraryCall class_hash selector calldata) =
        .ok (.LibraryCall class_hash selector calldata) := rfl
    have hcost : SYSCALL_GAS_COST
        (SyscallRequest.name (.LibraryCall class_hash selector calldata)) =
        some 71000 := by
      simp only [SyscallRequest.name]; decide
    simp only [syscall, hread, hcost, execute_syscall] at h
    norm_num [SYSCALL_BASE, STEP] at h
    by_cases hlt : initial_gas < 61000
    · rw [if_pos hlt] at h
      simp only [Except.ok.injEq, Prod.mk.injEq] at h
      rw [← h.2]
      exact ⟨le_refl _, by simp [hlt]⟩
    · rw [if_neg hlt] at h
      simp only [library_call] at h
      have hle := call_contract_helper_gas env st (initial_gas - 61000) _ st2 resp h
      constructor
      · omega
      · omega
  | Deploy class_hash salt calldata deploy_from_zero =>
    have hreq : required_syscall_gas
        (.Deploy class_hash salt calldata deploy_from_zero) = 80000 := by
      simp only [required_syscall_gas, SyscallRequest.name]; decide
    have hkec : keccakNoRounds (.Deploy class_hash salt calldata deploy_from_zero)
        initial_gas = false := rfl
    rw [hreq] at hdep ⊢
    rw [hkec]
    simp only [Bool.false_eq_true, or_false]
    have hread : read_syscall_request (.Deploy class_hash salt calldata deploy_from_zero) =
        .ok (.Deploy class_hash salt calldata deploy_from_zero) := rfl
    have hcost : SYSCALL_GAS_COST
        (SyscallRequest.name (.Deploy class_hash salt calldata deploy_from_zero)) =
        some 90000 := by
      simp only [SyscallRequest.name]; decide
    simp only [syscall, hread, hcost, execute_syscall] at h
    norm_num [SYSCALL_BASE, STEP] at h
    by_cases hlt : initial_gas < 80000
    · rw [if_pos hlt] at h
      simp only [Except.ok.injEq, Prod.mk.injEq] at h
      rw [← h.2]
      exact ⟨le_refl _, by simp [hlt]⟩
    · rw [if_neg hlt] at h
      have hle := deploy_gas env st class_hash salt deploy_from_zero
        (initial_gas - 80000) calldata st2 resp h (hdep (by omega))
      constructor
      · omega
      · omega
  | Keccak input =>
    have hreq : required_syscall_gas (.Keccak input) = 0 := by
      simp only [required_syscall_gas, SyscallRequest.name]; decide
    have hkb : keccakNoRounds (.Keccak input) initial_gas =
        (keccakRoundsDebited input initial_gas == 0) := rfl
    rw [hreq, hkb]
    have hread : read_syscall_request (.Keccak input) = .ok (.Keccak input) := rfl
    have hcost : SYSCALL_GAS_COST (SyscallRequest.name (.Keccak input)) = some 0 := by
      simp only [SyscallRequest.name]; decide
    simp only [syscall, hread, hcost, execute_syscall] at h
    norm_num [SYSCALL_BASE, STEP] at h
    obtain ⟨hg, hle⟩ := keccak_gas st input initial_gas st2 resp h
    rw [hg]
    simp only [KECCAK_ROUND_COST] at *
    constructor
    · omega
    · constructor
      · intro he
        right
        have hd0 : keccakRoundsDebited input initial_gas = 0 := by omega
        simp [hd0]
      · intro hor
        rcases hor with h1 | h2
        · omega
        · have hd0 : keccakRoundsDebited input initial_gas = 0 := by
            simpa using h2
          rw [hd0]
          simp

/-- C2 witness: a get_execution_info dispatched with 2000 gas is charged its
required 1000, so `gas_after = 1000 < 2000` and the equality condition is
false on both sides. -/
theorem syscall_gas_after_le_initial_witness :
    (SyscallResponse.mk 1000 (some .GetExecutionInfo)).gas ≤ 2000 ∧
    ((SyscallResponse.mk 1000 (some .GetExecutionInfo)).gas = 2000 ↔
      2000 < required_syscall_gas .GetExecutionInfo ∨
      keccakNoRounds .GetExecutionInfo 2000 = true) :=
  syscall_gas_after_le_initial env0 st0 .GetExecutionInfo 2000 st0
    (SyscallResponse.mk 1000 (some .GetExecutionInfo)) (by decide) (by decide)

end Starknet

